import Mathlib

/-!
Verification of the three memory HTTP services (cognee_app, graphiti_app, mem0_app).
Each handler is shallowly embedded as a pure Lean function over explicit state;
machine behaviour of the wrapped libraries is out of scope, exactly as in the
repository, and appears only as oracle parameters (search results, delete outcomes).
-/

namespace AiMemory

/-! ## Generic string machinery

The services build and parse composite tokens by concatenating with and
splitting on the underscore character.  We work on `String.data` (lists of
characters) with explicitly defined split/parse/print functions that model
Python `str.split` / f-strings / `str(int)` and Cypher `split` / `toInteger`. -/

/-- Split a character list at every occurrence of `sep`, dropping the separator
and keeping empty segments, exactly like Python `s.split(sep)` and Cypher
`split(s, sep)` for a one-character separator. -/
def splitOnChar (sep : Char) : List Char → List (List Char)
  | [] => [[]]
  | c :: cs =>
    if c = sep then
      [] :: splitOnChar sep cs
    else
      match splitOnChar sep cs with
      | [] => [[c]]
      | seg :: segs => (c :: seg) :: segs

/-- Decimal digit test on a character. -/
def isDigitChar (c : Char) : Bool := 48 ≤ c.toNat && c.toNat ≤ 57

/-- Numeric value of a decimal digit character. -/
def digitVal (c : Char) : Nat := c.toNat - 48

/-- Decimal digit character for a digit `d < 10`. -/
def digitChr (d : Nat) : Char := Char.ofNat (48 + d)

/-- Parse a nonempty all-digit character list as a natural number, most
significant digit first; `none` otherwise.  This models Cypher `toInteger`
(and Python `int(str)`) on the nonnegative token strings these services
produce: a non-numeric segment yields null / raises. -/
def parseDecDigits (l : List Char) : Option Nat :=
  if !l.isEmpty && l.all isDigitChar then
    some (l.foldl (fun acc c => 10 * acc + digitVal c) 0)
  else none

/-- Decimal representation of a natural number, most significant digit first,
modelling Python `str` on a nonnegative int (as used by the f-string in
graphiti_app/main.py line 158). -/
def decRepr (n : Nat) : List Char :=
  if n = 0 then ['0'] else ((Nat.digits 10 n).map digitChr).reverse

/-- The string has no underscore character, the well-formedness condition the
spec assumes for `user_id` and `category` values. -/
def noUnd (s : String) : Prop := '_' ∉ s.data

instance (s : String) : Decidable (noUnd s) := by
  unfold noUnd; infer_instance

/-! ## Composite namespace key

All four write/read sites of services A and B derive the scoping token with
the same Python f-string `f"{user_id}_{category}"`.  Each site is transcribed
separately so that their identity is a theorem about the source, not an
artifact of sharing one definition. -/

/-- Composite namespace key `"{user_id}_{category}"` (spec section 3). -/
def compositeKey (userId category : String) : String := userId ++ "_" ++ category

/-- Dataset name derived in cognee_app/main.py line 69 (the /add handler). -/
def cogneeAddKey (userId category : String) : String := userId ++ "_" ++ category

/-- Dataset name derived in cognee_app/main.py line 97 (the /search handler). -/
def cogneeSearchKey (userId category : String) : String := userId ++ "_" ++ category

/-- Group id derived in graphiti_app/main.py line 161 (the /ingest handler). -/
def graphitiIngestKey (userId category : String) : String := userId ++ "_" ++ category

/-- Group id derived in graphiti_app/main.py line 204 (the /strict_search handler). -/
def graphitiSearchKey (userId category : String) : String := userId ++ "_" ++ category

/-- Abstraction of the wrapped libraries for the round-trip clause of the
composite-key contract: a store is a list of (scoping token, payload) pairs;
`add` under a token prepends, `search` under a token returns the payloads
filed under exactly that token.  The libraries themselves are external
collaborators (spec section 1); only their keyed-store contract is used. -/
def storeAdd (store : List (String × String)) (key text : String) :
    List (String × String) :=
  (key, text) :: store

/-- Payloads a keyed search scoped to `key` retrieves from the store. -/
def storeSearch (store : List (String × String)) (key : String) : List String :=
  (store.filter (fun e => e.1 == key)).map (fun e => e.2)

/-- Truthiness of an optional JSON string field under Python `if not x`:
an absent field (None) and the empty string are both falsy. -/
def optTruthy : Option String → Bool
  | none => false
  | some s => !(s == "")

/-! ## Service B (graphiti_app): episodes and the delete_old scoped pass -/

/-- Episode name built by the /ingest handler, graphiti_app/main.py line 158:
`f"User_{user_id}_Ingest_{int(time.time())}"`. -/
def episodeName (userId : String) (ts : Nat) : String :=
  "User_" ++ userId ++ "_Ingest_" ++ String.mk (decRepr ts)

/-- An Episodic node as created by /ingest: we record the creating user and the
creation epoch-second; the stored node name is exactly the one the handler
writes. -/
structure EpisodicNode where
  owner : String
  createdAt : Nat
deriving DecidableEq, Repr

/-- Node name stored for an episodic node (graphiti_app/main.py line 158). -/
def EpisodicNode.name (e : EpisodicNode) : String := episodeName e.owner e.createdAt

/-- Scoping token prepended in graphiti_app/main.py line 265:
`user_prefix = f"User_{user_id}_Ingest_"`. -/
def userIngestPre (userId : String) : String := "User_" ++ userId ++ "_Ingest_"

/-- Cypher `s STARTS WITH p` on our embedded strings. -/
def cypherStartsWith (s p : String) : Bool := p.data.isPrefixOf s.data

/-- Cypher `toInteger(split(s, sep)[3])` from the delete query
(graphiti_app/main.py line 275): `none` models null (segment missing or not
numeric), in which case the `< cutoff` comparison is null and the row is not
matched. -/
def cypherNameField3 (s : String) : Option Nat :=
  match (splitOnChar '_' s.data).get? 3 with
  | some seg => parseDecDigits seg
  | none => none

/-- The WHERE clause of the scoped delete query (graphiti_app/main.py lines
272-278): the node name starts with the user prefix and its fourth
underscore-separated field parses to an integer below the cutoff. -/
def slatedForDelete (userId : String) (cutoff : Int) (e : EpisodicNode) : Bool :=
  cypherStartsWith e.name (userIngestPre userId) &&
    match cypherNameField3 e.name with
    | some t => decide ((t : Int) < cutoff)
    | none => false

/-- Effect of the prefix-scoped `DETACH DELETE` pass on the episodic nodes of
the graph: every matched node is removed.  The separate, global orphan-node
sweep that the handler runs afterwards (lines 284-289) acts on arbitrary graph
nodes and relationships and is outside this episodic-node model; the claims
treated here concern only this pass. -/
def deleteOldPass (nodes : List EpisodicNode) (userId : String) (cutoff : Int) :
    List EpisodicNode :=
  nodes.filter (fun e => !slatedForDelete userId cutoff e)

/-- Retention cutoff of the /delete_old handler, graphiti_app/main.py lines
263-264: `int(time.time()) - 90 * 24 * 60 * 60`. -/
def graphitiCutoff (now : Int) : Int := now - 90 * 24 * 60 * 60

/-! ## Service A (cognee_app): relational state and the /delete handler

The handler issues raw SQL against five tables (cognee_app/main.py lines
141-211).  Tables are lists of rows; `id` columns are primary keys, which the
theorems record as Nodup hypotheses.  Timestamps are epoch seconds as `Int`. -/

/-- A row of the `datasets` table (columns used: id, name). -/
structure DatasetRow where
  id : Nat
  name : String
deriving DecidableEq, Repr

/-- A row of the `data` table (columns used: id, updated_at). -/
structure DataRow where
  id : Nat
  updatedAt : Int
deriving DecidableEq, Repr

/-- A row of the `dataset_data` junction table (dataset_id, data_id). -/
structure DatasetDataRow where
  datasetId : Nat
  dataId : Nat
deriving DecidableEq, Repr

/-- A row of one of the dataset-dependent tables `acls`, `dataset_database`,
`pipeline_runs`: the handler only reads their `dataset_id` column, `rowId`
stands for the rest of the row. -/
structure DepRow where
  rowId : Nat
  datasetId : Nat
deriving DecidableEq, Repr

/-- The part of the relational store the /delete handler touches. -/
structure CogneeDB where
  datasets : List DatasetRow
  dataRows : List DataRow
  datasetData : List DatasetDataRow
  acls : List DepRow
  datasetDatabase : List DepRow
  pipelineRuns : List DepRow
deriving DecidableEq, Repr

/-- Response of the /delete handler.  The 200 response carries the new state
and the `data_entries_deleted` / `empty_datasets_removed` counts of the JSON
body (cognee_app/main.py lines 213-221). -/
inductive CogneeDeleteResult where
  | badRequest400
  | notFound404 (db : CogneeDB)
  | ok200 (db : CogneeDB) (dataEntriesDeleted : Nat) (emptyDatasetsRemoved : Nat)
  | serverError500 (db : CogneeDB)
deriving DecidableEq, Repr

/-- Ids selected by the old-data join (cognee_app/main.py lines 155-165):
`SELECT d.id FROM data d JOIN dataset_data dd ON d.id = dd.data_id WHERE
dd.dataset_id = ANY(datasetIds) AND d.updated_at < cutoff`, one output row per
matching (d, dd) pair. -/
def sqlOldDataIds (dataRows : List DataRow) (datasetData : List DatasetDataRow)
    (datasetIds : List Nat) (cutoff : Int) : List Nat :=
  dataRows.foldr
    (fun d acc =>
      ((datasetData.filter (fun dd =>
          dd.dataId == d.id && datasetIds.contains dd.datasetId &&
            decide (d.updatedAt < cutoff))).map (fun _ => d.id)) ++ acc)
    []

/-- Step 3 of the /delete transaction (cognee_app/main.py lines 170-176):
under `if deleted_count > 0`, remove the junction rows whose data_id is among
the old ids and whose dataset_id is among the targeted datasets. -/
def junctionAfterDelete (datasetData : List DatasetDataRow)
    (oldDataIds datasetIds : List Nat) : List DatasetDataRow :=
  if oldDataIds.length > 0 then
    datasetData.filter (fun dd =>
      !(oldDataIds.contains dd.dataId && datasetIds.contains dd.datasetId))
  else datasetData

/-- Step 4 (cognee_app/main.py lines 178-185): under the same guard, delete
the data rows with the old ids. -/
def dataAfterDelete (dataRows : List DataRow) (oldDataIds : List Nat) :
    List DataRow :=
  if oldDataIds.length > 0 then
    dataRows.filter (fun d => !(oldDataIds.contains d.id))
  else dataRows

/-- Step 5's SELECT (cognee_app/main.py lines 187-199): the targeted dataset
rows whose remaining junction-row count is zero, as seen after step 3. -/
def emptyDatasetIdsOf (datasets : List DatasetRow) (datasetIds : List Nat)
    (datasetData1 : List DatasetDataRow) : List Nat :=
  (datasets.filter (fun r =>
    datasetIds.contains r.id &&
      (datasetData1.countP (fun dd => dd.datasetId == r.id) == 0))).map
    (fun r => r.id)

/-- Step 5's dependent-table DELETEs (cognee_app/main.py lines 204-208), run
only when the empty-dataset list is non-empty. -/
def depAfterCleanup (rows : List DepRow) (emptyIds : List Nat) : List DepRow :=
  if !emptyIds.isEmpty then
    rows.filter (fun r => !(emptyIds.contains r.datasetId))
  else rows

/-- Step 5's final DELETE of the empty dataset rows themselves
(cognee_app/main.py lines 210-211). -/
def datasetsAfterCleanup (datasets : List DatasetRow) (emptyIds : List Nat) :
    List DatasetRow :=
  if !emptyIds.isEmpty then
    datasets.filter (fun r => !(emptyIds.contains r.id))
  else datasets

/-- Steps 2-5 of the /delete transaction over the resolved dataset ids,
assembling the final state and the two reported counts
(cognee_app/main.py lines 153-221). -/
def cogneeDeleteSteps (db : CogneeDB) (datasetIds : List Nat) (cutoff : Int) :
    CogneeDeleteResult :=
  let oldDataIds := sqlOldDataIds db.dataRows db.datasetData datasetIds cutoff
  let datasetData1 := junctionAfterDelete db.datasetData oldDataIds datasetIds
  let emptyIds := emptyDatasetIdsOf db.datasets datasetIds datasetData1
  .ok200
    { datasets := datasetsAfterCleanup db.datasets emptyIds
      dataRows := dataAfterDelete db.dataRows oldDataIds
      datasetData := datasetData1
      acls := depAfterCleanup db.acls emptyIds
      datasetDatabase := depAfterCleanup db.datasetDatabase emptyIds
      pipelineRuns := depAfterCleanup db.pipelineRuns emptyIds }
    oldDataIds.length emptyIds.length

/-- Steps 1-5 of the /delete transaction (cognee_app/main.py lines 141-221),
given the composite names and the computed cutoff: resolve the dataset rows by
name, 404 when none match, otherwise run the remaining steps. -/
def cogneeDeleteCore (db : CogneeDB) (names : List String) (cutoff : Int) :
    CogneeDeleteResult :=
  let datasetRows := db.datasets.filter (fun ds => names.contains ds.name)
  if datasetRows.isEmpty then .notFound404 db
  else cogneeDeleteSteps db (datasetRows.map (fun ds => ds.id)) cutoff

/-- A JSON scalar as received for the `days` field. -/
inductive PyVal where
  | pyInt (n : Int)
  | pyStr (s : String)
deriving DecidableEq, Repr

/-- Python `int(v)` on such a value: identity on ints, decimal parse (with an
optional leading minus sign) on strings, `none` when `int` raises ValueError. -/
def pyIntCast : PyVal → Option Int
  | .pyInt n => some n
  | .pyStr s =>
    match s.data with
    | '-' :: rest => (parseDecDigits rest).map (fun n => -(n : Int))
    | l => (parseDecDigits l).map (fun n => (n : Int))

/-- Request body of the /delete handler; `none` fields model absent keys. -/
structure CogneeDeletePayload where
  userId : Option String
  categories : Option (List String)
  days : Option PyVal
deriving DecidableEq, Repr

/-- Truthiness of the optional `categories` list under `if not categories`. -/
def optListTruthy : Option (List String) → Bool
  | none => false
  | some l => !l.isEmpty

/-- The full /delete handler (cognee_app/main.py lines 117-228): input
validation, cutoff computation `now - timedelta(days=int(days))` in seconds,
composite-name construction, then the transactional core.  A ValueError from
`int(days)` is caught by the outer handler as a 500. -/
def cogneeDeleteHandler (db : CogneeDB) (now : Int) (p : CogneeDeletePayload) :
    CogneeDeleteResult :=
  if !(optTruthy p.userId) || !(optListTruthy p.categories) || p.days.isNone then
    .badRequest400
  else
    match p.days with
    | none => .badRequest400
    | some dv =>
      match pyIntCast dv with
      | none => .serverError500 db
      | some d =>
        let cutoff := now - d * 86400
        let names := (p.categories.getD []).map
          (fun cat => (p.userId.getD "") ++ "_" ++ cat)
        cogneeDeleteCore db names cutoff

/-! Claim-side characterizations used to state the service A delete claims. -/

/-- Data ids linked to dataset `dsId` by the junction table. -/
def dsLinkedIds (db : CogneeDB) (dsId : Nat) : List Nat :=
  (db.datasetData.filter (fun dd => dd.datasetId == dsId)).map (fun dd => dd.dataId)

/-- A data row is linked to dataset `dsId` and strictly older than the cutoff. -/
def isOldLinked (db : CogneeDB) (dsId : Nat) (cutoff : Int) (d : DataRow) : Bool :=
  (dsLinkedIds db dsId).contains d.id && decide (d.updatedAt < cutoff)

/-- The data rows of dataset `dsId` that are older than the cutoff. -/
def oldRowsOf (db : CogneeDB) (dsId : Nat) (cutoff : Int) : List DataRow :=
  db.dataRows.filter (isOldLinked db dsId cutoff)

/-! ## Add/ingest handlers (claims on validation and invocation) -/

/-- Request body of the cognee /add handler; `none` models an absent key,
`category` defaults to "general" only when absent (Python dict.get default). -/
structure CogneeAddPayload where
  data : Option String
  userId : Option String
  category : Option String
deriving DecidableEq, Repr

/-- Outcome of the cognee /add handler: either the 400 rejection or an
invocation of `cognee.add(text, dataset_name=...)` followed by cognify
(cognee_app/main.py lines 56-78). -/
inductive CogneeAddResult where
  | badRequest400
  | invoked (datasetName : String) (body : String)
deriving DecidableEq, Repr

/-- The cognee /add handler, cognee_app/main.py lines 56-74: falsy `data` or
`user_id` (absent or empty string) is rejected before the library is called. -/
def cogneeAdd (p : CogneeAddPayload) : CogneeAddResult :=
  if !(optTruthy p.data) || !(optTruthy p.userId) then .badRequest400
  else .invoked ((p.userId.getD "") ++ "_" ++ (p.category.getD "general"))
    (p.data.getD "")

/-- Request body of the graphiti /ingest handler. -/
structure GraphitiIngestPayload where
  data : Option String
  userId : Option String
  category : Option String
deriving DecidableEq, Repr

/-- Outcome of the graphiti /ingest handler (graphiti_app/main.py lines
144-185): 500 when the singleton is not initialized, 400 on failed validation,
otherwise an `add_episode` invocation with the derived name and group id. -/
inductive GraphitiIngestResult where
  | serverError500
  | badRequest400
  | invoked (episode : String) (groupId : String) (body : String)
deriving DecidableEq, Repr

/-- The graphiti /ingest handler.  `initialized` is the state of the global
`graphiti` singleton, `now` the epoch second used for the episode name. -/
def graphitiIngest (initialized : Bool) (now : Nat) (p : GraphitiIngestPayload) :
    GraphitiIngestResult :=
  if !initialized then .serverError500
  else if !(optTruthy p.data) || !(optTruthy p.userId) then .badRequest400
  else .invoked (episodeName (p.userId.getD "") now)
    ((p.userId.getD "") ++ "_" ++ (p.category.getD "general"))
    (p.data.getD "")

/-! ## Service C (mem0_app) -/

/-- A memory record as the mem0 library returns it: its id, the
`metadata.category` field (`none` = absent) and the `created_at` string
(`none` = absent). -/
structure Mem0Rec where
  mid : String
  category : Option String
  createdAt : Option String
deriving DecidableEq, Repr

/-- Request body of the mem0 /add handler; `none` fields model absent keys. -/
structure Mem0AddPayload where
  data : Option String
  userId : Option String
  category : Option String
deriving DecidableEq, Repr

/-- Outcome of the mem0 /add handler (mem0_app/main.py lines 92-110). -/
inductive Mem0AddResult where
  | serverError500
  | badRequest400
  | invoked (body : String) (userId : String) (category : String)
deriving DecidableEq, Repr

/-- The mem0 /add handler: unlike services A and B it checks key PRESENCE
(`'data' not in payload`), not truthiness, so empty-string values pass
validation.  The outer `not payload` also rejects an absent/empty body,
modelled by the `none` case. -/
def mem0Add (initialized : Bool) (p : Option Mem0AddPayload) : Mem0AddResult :=
  if !initialized then .serverError500
  else
    match p with
    | none => .badRequest400
    | some q =>
      match q.data, q.userId with
      | some d, some u => .invoked d u (q.category.getD "general")
      | _, _ => .badRequest400

/-- Shape of the raw `memory.search` response the handler normalizes
(mem0_app/main.py lines 144-150): a dict with a `results` list, a bare list,
or anything else (treated as no candidates). -/
inductive Mem0RawResp where
  | dictResp (results : List Mem0Rec)
  | listResp (items : List Mem0Rec)
  | otherResp
deriving DecidableEq, Repr

/-- Normalization of the raw response, mem0_app/main.py lines 144-150. -/
def normalizeResp : Mem0RawResp → List Mem0Rec
  | .dictResp results => results
  | .listResp items => items
  | .otherResp => []

/-- Category preference and final trim of the mem0 /search handler
(mem0_app/main.py lines 152-166): under `if category and candidates`, a truthy
(non-empty) category keeps only the metadata matches when there are any,
otherwise the candidate set is untouched; the reply is capped at 5. -/
def mem0Refine (category : Option String) (cands : List Mem0Rec) : List Mem0Rec :=
  let cands1 :=
    match category with
    | some c =>
      if !(c == "") && !cands.isEmpty then
        let preferred := cands.filter (fun m : Mem0Rec => m.category == some c)
        if !preferred.isEmpty then preferred else cands
      else cands
    | none => cands
  cands1.take 5

/-- Request body of the mem0 /search handler. -/
structure Mem0SearchPayload where
  query : Option String
  userId : Option String
  category : Option String
deriving DecidableEq, Repr

/-- Outcome of the mem0 /search handler. -/
inductive Mem0SearchResult where
  | serverError500
  | badRequest400
  | ok200 (results : List Mem0Rec)
deriving DecidableEq, Repr

/-- The mem0 /search handler (mem0_app/main.py lines 112-180).  `libSearch`
is the wrapped `memory.search(query=..., user_id=..., limit=20,
threshold=0.55)` call: by its type it receives the query and the user id only,
never the category. -/
def mem0SearchHandler (initialized : Bool)
    (libSearch : String → String → Mem0RawResp) (p : Option Mem0SearchPayload) :
    Mem0SearchResult :=
  if !initialized then .serverError500
  else
    match p with
    | none => .badRequest400
    | some q =>
      match q.query, q.userId with
      | some qs, some u =>
        .ok200 (mem0Refine q.category (normalizeResp (libSearch qs u)))
      | _, _ => .badRequest400

/-- Spec-side restatement of the category-preference clause of claim C6, to be
compared with the handler: keep exactly the metadata matches when at least one
candidate matches, otherwise keep the candidate set unchanged; return at most
5. -/
def mem0CategoryPreferenceSpec (c : String) (cands : List Mem0Rec) :
    List Mem0Rec :=
  (if cands.any (fun m => m.category == some c) then
    cands.filter (fun m => m.category == some c)
  else cands).take 5

/-- Response of the mem0 /delete_old handler (mem0_app/main.py lines 182-221). -/
inductive Mem0DeleteResp where
  | ok200 (deletedCount : Nat)
  | multi207 (deletedCount : Nat) (errors : List String)
  | err500 (msg : String)
deriving DecidableEq, Repr

/-- The record loop of the /delete_old handler (mem0_app/main.py lines
203-214), with the accumulators of the source (`deleted_count`, `errors`) plus
the list of ids whose `memory.delete` call was actually performed and
succeeded (the persistent side effect).  `parseIso` models
`datetime.fromisoformat` (`none` = raises ValueError, aborting the whole
request into the outer 500 handler); `delRes` models `memory.delete`
(`Except.error e` = raises, the error is collected per record). -/
def mem0DeleteLoop (parseIso : String → Option Int)
    (delRes : String → Except String Unit) (cutoff : Int)
    (mems : List Mem0Rec) (count : Nat) (errors : List String)
    (deleted : List String) : Mem0DeleteResp × List String :=
  match mems with
  | [] =>
    (if !errors.isEmpty then .multi207 count errors else .ok200 count, deleted)
  | m :: rest =>
    match m.createdAt with
    | none => mem0DeleteLoop parseIso delRes cutoff rest count errors deleted
    | some s =>
      match parseIso s with
      | none => (.err500 ("Invalid isoformat string: " ++ s), deleted)
      | some t =>
        if t < cutoff then
          match delRes m.mid with
          | .ok _ =>
            mem0DeleteLoop parseIso delRes cutoff rest (count + 1) errors
              (deleted ++ [m.mid])
          | .error e =>
            mem0DeleteLoop parseIso delRes cutoff rest count
              (errors ++ ["Could not delete memory " ++ m.mid ++ ": " ++ e])
              deleted
        else mem0DeleteLoop parseIso delRes cutoff rest count errors deleted

/-- The /delete_old handler body after fetching `get_all(user_id=...)`:
fixed 90-day cutoff from `now`, then the record loop starting from zero
accumulators. -/
def mem0DeleteOld (parseIso : String → Option Int)
    (delRes : String → Except String Unit) (userMemories : List Mem0Rec)
    (now : Int) : Mem0DeleteResp × List String :=
  mem0DeleteLoop parseIso delRes (now - 90 * 86400) userMemories 0 [] []

/-- A record the loop treats as old: `created_at` present, parses, and is
before the cutoff. -/
def isOldRec (parseIso : String → Option Int) (cutoff : Int) (m : Mem0Rec) :
    Bool :=
  match m.createdAt with
  | some s =>
    match parseIso s with
    | some t => decide (t < cutoff)
    | none => false
  | none => false

/-- Every present `created_at` of the record parses (no ValueError). -/
def parsesOk (parseIso : String → Option Int) (m : Mem0Rec) : Bool :=
  match m.createdAt with
  | some s => (parseIso s).isSome
  | none => true

/-- Whether the modelled `memory.delete` call fails for this id. -/
def delFails (delRes : String → Except String Unit) (mid : String) : Bool :=
  match delRes mid with
  | .ok _ => false
  | .error _ => true

/-- Error messages the loop collects over a record list. -/
def errListOf (parseIso : String → Option Int)
    (delRes : String → Except String Unit) (cutoff : Int)
    (mems : List Mem0Rec) : List String :=
  (mems.filter (isOldRec parseIso cutoff)).filterMap (fun m =>
    match delRes m.mid with
    | .ok _ => none
    | .error e => some ("Could not delete memory " ++ m.mid ++ ": " ++ e))

/-- Ids the loop successfully deletes over a record list. -/
def deletedListOf (parseIso : String → Option Int)
    (delRes : String → Except String Unit) (cutoff : Int)
    (mems : List Mem0Rec) : List String :=
  (mems.filter (isOldRec parseIso cutoff)).filterMap (fun m =>
    match delRes m.mid with
    | .ok _ => some m.mid
    | .error _ => none)

/-! ## Health endpoints and routes (claim C8) -/

/-- Outcome of a health probe. -/
inductive HealthResult where
  | healthy200
  | unhealthy503
  | unhealthy500
deriving DecidableEq, Repr

/-- The graphiti /health handler (graphiti_app/main.py lines 138-142): healthy
exactly when both the `graphiti` singleton and the global async driver are
initialized; 503 otherwise.  It reads the two globals and writes nothing. -/
def graphitiHealth (graphitiInit : Bool) (driverInit : Bool) : HealthResult :=
  if graphitiInit && driverInit then .healthy200 else .unhealthy503

/-- Result of evaluating `datetime.datetime.now()` in cognee_app/main.py line
45.  Line 1 imports the `datetime` module but line 7
(`from datetime import datetime, timedelta, timezone`) rebinds the module-level
name `datetime` to the class, so the attribute access `datetime.datetime`
raises AttributeError on every call; the expression never produces a value. -/
def cogneeDatetimeNow : Except String Int :=
  .error "AttributeError: type object datetime.datetime has no attribute datetime"

/-- The cognee /health handler (cognee_app/main.py lines 39-54).  It consults
no initialization state at all (the parameter records the state of the wrapped
cognee setup only so the claim can be stated); its try block builds a static
healthy body around the timestamp expression, and any exception is mapped to
the 500 unhealthy branch. -/
def cogneeHealth (_cogneeInitialized : Bool) : HealthResult :=
  match cogneeDatetimeNow with
  | .ok _ => .healthy200
  | .error _ => .unhealthy500

/-- Routes registered by mem0_app/main.py (decorators at lines 92, 112, 182):
there is no /health route. -/
def mem0Routes : List String := ["/add", "/search", "/delete_old"]

/-- Routes registered by graphiti_app/main.py. -/
def graphitiRoutes : List String :=
  ["/health", "/ingest", "/strict_search", "/delete_old"]

/-- Routes registered by cognee_app/main.py. -/
def cogneeRoutes : List String :=
  ["/health", "/add", "/search", "/delete", "/config"]

/-- A concrete sample of the service A store, used by the witnesses: dataset 1
is named "u_c" and holds data rows 10 (updated at second 5) and 11 (updated at
second 50); dataset 2 belongs to another tenant. -/
def dbSample : CogneeDB :=
  { datasets := [⟨1, "u_c"⟩, ⟨2, "v_d"⟩]
    dataRows := [⟨10, 5⟩, ⟨11, 50⟩]
    datasetData := [⟨1, 10⟩, ⟨1, 11⟩]
    acls := [⟨100, 1⟩]
    datasetDatabase := [⟨200, 1⟩]
    pipelineRuns := [⟨300, 1⟩] }

/-! ## Lemmas about the string machinery -/

theorem splitOnChar_of_not_mem (sep : Char) (l : List Char) (h : sep ∉ l) :
    splitOnChar sep l = [l] := by
  induction l with
  | nil => rfl
  | cons c cs ih =>
    simp only [List.mem_cons, not_or] at h
    obtain ⟨h1, h2⟩ := h
    have hcs : ¬(c = sep) := fun hc => h1 hc.symm
    simp only [splitOnChar, ih h2, if_neg hcs]

theorem splitOnChar_append (sep : Char) (l1 l2 : List Char) (h : sep ∉ l1) :
    splitOnChar sep (l1 ++ sep :: l2) = l1 :: splitOnChar sep l2 := by
  induction l1 with
  | nil => simp [splitOnChar]
  | cons c cs ih =>
    simp only [List.mem_cons, not_or] at h
    obtain ⟨h1, h2⟩ := h
    have hcs : ¬(c = sep) := fun hc => h1 hc.symm
    simp only [List.cons_append, splitOnChar, List.append_eq, ih h2, if_neg hcs]

theorem digitChr_isDigit (d : Nat) (h : d < 10) : isDigitChar (digitChr d) = true := by
  interval_cases d <;> rfl

theorem digitVal_digitChr (d : Nat) (h : d < 10) : digitVal (digitChr d) = d := by
  interval_cases d <;> rfl

theorem digitChr_ne_und (d : Nat) (h : d < 10) : digitChr d ≠ '_' := by
  interval_cases d <;> decide

theorem und_not_mem_decRepr (n : Nat) : '_' ∉ decRepr n := by
  unfold decRepr
  split
  · decide
  · intro hmem
    rw [List.mem_reverse, List.mem_map] at hmem
    obtain ⟨d, hd, hchr⟩ := hmem
    exact digitChr_ne_und d (Nat.digits_lt_base (by norm_num) hd) hchr

theorem foldl_digitChr (L : List Nat) (hL : ∀ d ∈ L, d < 10) (acc : Nat) :
    ((L.map digitChr).reverse).foldl (fun a c => 10 * a + digitVal c) acc
      = acc * 10 ^ L.length + Nat.ofDigits 10 L := by
  induction L generalizing acc with
  | nil => simp [Nat.ofDigits_nil]
  | cons d T ih =>
    have hd : d < 10 := hL d (List.mem_cons_self d T)
    have hT : ∀ x ∈ T, x < 10 := fun x hx => hL x (List.mem_cons_of_mem d hx)
    simp only [List.map_cons, List.reverse_cons, List.foldl_append, List.foldl_cons,
      List.foldl_nil, ih hT acc, digitVal_digitChr d hd, Nat.ofDigits_cons,
      List.length_cons]
    ring

theorem parse_decRepr (n : Nat) : parseDecDigits (decRepr n) = some n := by
  by_cases h0 : n = 0
  · subst h0; rfl
  · have hne : Nat.digits 10 n ≠ [] := Nat.digits_ne_nil_iff_ne_zero.mpr h0
    have hlt : ∀ d ∈ Nat.digits 10 n, d < 10 := fun d hd =>
      Nat.digits_lt_base (by norm_num) hd
    have hall : (decRepr n).all isDigitChar = true := by
      rw [List.all_eq_true]
      intro c hc
      rw [decRepr, if_neg h0, List.mem_reverse, List.mem_map] at hc
      obtain ⟨d, hd, rfl⟩ := hc
      exact digitChr_isDigit d (hlt d hd)
    have hnonempty : (decRepr n).isEmpty = false := by
      rw [decRepr, if_neg h0, List.isEmpty_eq_false_iff_exists_mem]
      obtain ⟨d, hd⟩ := List.exists_mem_of_ne_nil _ hne
      exact ⟨digitChr d, by rw [List.mem_reverse, List.mem_map]; exact ⟨d, hd, rfl⟩⟩
    rw [parseDecDigits, if_pos (by rw [hnonempty, hall]; rfl)]
    rw [decRepr, if_neg h0, foldl_digitChr _ hlt 0, Nat.ofDigits_digits]
    simp

theorem append_sep_inj (sep : Char) (x y a b : List Char)
    (hx : sep ∉ x) (hy : sep ∉ y) (h : x ++ sep :: a = y ++ sep :: b) :
    x = y ∧ a = b := by
  induction x generalizing y with
  | nil =>
    cases y with
    | nil => simpa using h
    | cons d ys =>
      simp only [List.nil_append, List.cons_append, List.cons.injEq] at h
      simp only [List.mem_cons, not_or] at hy
      exact absurd h.1 hy.1
  | cons c xs ih =>
    cases y with
    | nil =>
      simp only [List.cons_append, List.nil_append, List.cons.injEq] at h
      simp only [List.mem_cons, not_or] at hx
      exact absurd h.1 (fun hh => hx.1 hh.symm)
    | cons d ys =>
      simp only [List.cons_append, List.cons.injEq] at h
      simp only [List.mem_cons, not_or] at hx hy
      obtain ⟨he, htail⟩ := h
      obtain ⟨hxy, hab⟩ := ih ys hx.2 hy.2 htail
      exact ⟨by rw [he, hxy], hab⟩

theorem append_sep_isPre (sep : Char) (x y a b : List Char)
    (hx : sep ∉ x) (hy : sep ∉ y) (h : (x ++ sep :: a).IsPrefix (y ++ sep :: b)) :
    x = y := by
  induction x generalizing y with
  | nil =>
    cases y with
    | nil => rfl
    | cons d ys =>
      simp only [List.nil_append, List.cons_append, List.cons_prefix_cons] at h
      simp only [List.mem_cons, not_or] at hy
      exact absurd h.1 hy.1
  | cons c xs ih =>
    cases y with
    | nil =>
      simp only [List.cons_append, List.nil_append, List.cons_prefix_cons] at h
      simp only [List.mem_cons, not_or] at hx
      exact absurd h.1 (fun hh => hx.1 hh.symm)
    | cons d ys =>
      simp only [List.cons_append, List.cons_prefix_cons] at h
      simp only [List.mem_cons, not_or] at hx hy
      rw [h.1, ih ys hx.2 hy.2 h.2]

theorem strData_append (s t : String) : (s ++ t).data = s.data ++ t.data :=
  String.data_append s t

theorem strData_inj (s t : String) (h : s.data = t.data) : s = t := by
  cases s; cases t; exact congrArg String.mk h

/-! ## Claim C1: the composite-key contract -/

theorem compositeKey_data (u c : String) :
    (compositeKey u c).data = u.data ++ '_' :: c.data := by
  have hu : ("_" : String).data = ['_'] := rfl
  unfold compositeKey
  rw [strData_append, strData_append, hu, List.append_assoc, List.singleton_append]

theorem store_roundtrip (store : List (String × String)) (k text : String) :
    text ∈ storeSearch (storeAdd store k text) k := by
  unfold storeSearch storeAdd
  rw [List.filter_cons]
  simp

/-- C1 (amended): for every pair of underscore-free `(user_id, category)`
strings the composite token `"{user_id}_{category}"` is injective; the add and
search handlers of the two services that derive a composite token do so with
the identical function (cognee add/search and graphiti ingest/strict_search),
so a payload written under a pair is retrieved by a keyed-store read under the
same pair; and service C derives no composite token: its /add handler invokes
the wrapped add with user_id and category as separate arguments, and its
/search handler hands the wrapped search the query and the user_id alone,
applying the category only afterwards. -/
theorem compositeKey_contract :
    (∀ u1 c1 u2 c2 : String, noUnd u1 → noUnd c1 → noUnd u2 → noUnd c2 →
      compositeKey u1 c1 = compositeKey u2 c2 → u1 = u2 ∧ c1 = c2)
    ∧ (∀ u c : String,
        cogneeAddKey u c = compositeKey u c ∧
          cogneeSearchKey u c = compositeKey u c ∧
          graphitiIngestKey u c = compositeKey u c ∧
          graphitiSearchKey u c = compositeKey u c)
    ∧ (∀ (store : List (String × String)) (u c text : String),
        text ∈ storeSearch (storeAdd store (cogneeAddKey u c) text)
          (cogneeSearchKey u c)
        ∧ text ∈ storeSearch (storeAdd store (graphitiIngestKey u c) text)
          (graphitiSearchKey u c))
    ∧ (∀ d u cat : String,
        mem0Add true (some ⟨some d, some u, some cat⟩)
          = Mem0AddResult.invoked d u cat)
    ∧ (∀ (libSearch : String → String → Mem0RawResp) (q u : String)
        (cat : Option String),
        mem0SearchHandler true libSearch (some ⟨some q, some u, cat⟩)
          = Mem0SearchResult.ok200
              (mem0Refine cat (normalizeResp (libSearch q u)))) := by
  refine ⟨?_, ?_, ?_, ?_, ?_⟩
  · intro u1 c1 u2 c2 hu1 hc1 hu2 hc2 h
    have hd := congrArg String.data h
    rw [compositeKey_data, compositeKey_data] at hd
    obtain ⟨h1, h2⟩ := append_sep_inj '_' u1.data u2.data c1.data c2.data hu1 hu2 hd
    exact ⟨strData_inj _ _ h1, strData_inj _ _ h2⟩
  · intro u c
    exact ⟨rfl, rfl, rfl, rfl⟩
  · intro store u c text
    exact ⟨store_roundtrip store (u ++ "_" ++ c) text,
      store_roundtrip store (u ++ "_" ++ c) text⟩
  · intro d u cat
    rfl
  · intro libSearch q u cat
    rfl

/-- Witness for C1 at the concrete pair ("alice", "work"). -/
theorem compositeKey_contract_witness :
    ("alice" : String) = "alice" ∧ ("work" : String) = "work" :=
  compositeKey_contract.1 "alice" "work" "alice" "work" (by decide) (by decide)
    (by decide) (by decide) rfl

/-- C1 counterexample: the claim as frozen quantifies over every service, but
service C does not derive the composite token with the same function as
services A and B.  At the concrete request (data "hello", user "alice",
category "work") its /add handler invokes the wrapped add with user_id "alice"
and category "work" as separate arguments, and the scoping value "alice" it
passes is not the composite token "alice_work" that the A and B handlers
derive for this pair. -/
theorem compositeKey_contract_cex :
    mem0Add true (some ⟨some "hello", some "alice", some "work"⟩)
      = Mem0AddResult.invoked "hello" "alice" "work"
    ∧ "alice" ≠ compositeKey "alice" "work"
    ∧ cogneeAddKey "alice" "work" = compositeKey "alice" "work" :=
  ⟨rfl, by decide, rfl⟩

/-! ## Claim C3: the graphiti prefix-scoped delete pass -/

theorem episodeName_data (u : String) (ts : Nat) :
    (episodeName u ts).data
      = ['U', 's', 'e', 'r'] ++ '_' ::
          (u.data ++ '_' :: (['I', 'n', 'g', 'e', 's', 't'] ++ '_' :: decRepr ts)) := by
  have h1 : ("User_" : String).data = ['U', 's', 'e', 'r', '_'] := rfl
  have h2 : ("_Ingest_" : String).data = ['_', 'I', 'n', 'g', 'e', 's', 't', '_'] := rfl
  have h3 : (String.mk (decRepr ts)).data = decRepr ts := rfl
  unfold episodeName
  rw [strData_append, strData_append, strData_append, h1, h2, h3]
  simp

theorem userIngestPre_data (u : String) :
    (userIngestPre u).data
      = ['U', 's', 'e', 'r'] ++ '_' ::
          (u.data ++ '_' :: ['I', 'n', 'g', 'e', 's', 't', '_']) := by
  have h1 : ("User_" : String).data = ['U', 's', 'e', 'r', '_'] := rfl
  have h2 : ("_Ingest_" : String).data = ['_', 'I', 'n', 'g', 'e', 's', 't', '_'] := rfl
  unfold userIngestPre
  rw [strData_append, strData_append, h1, h2]
  simp

theorem episodeName_eq_pre_append (u : String) (ts : Nat) :
    (episodeName u ts).data = (userIngestPre u).data ++ decRepr ts := by
  rw [episodeName_data, userIngestPre_data]
  simp

theorem splitOnChar_episodeName (u : String) (ts : Nat) (hu : noUnd u) :
    splitOnChar '_' (episodeName u ts).data
      = [['U', 's', 'e', 'r'], u.data, ['I', 'n', 'g', 'e', 's', 't'], decRepr ts] := by
  rw [episodeName_data]
  rw [splitOnChar_append '_' ['U', 's', 'e', 'r'] _ (by decide)]
  rw [splitOnChar_append '_' u.data _ hu]
  rw [splitOnChar_append '_' ['I', 'n', 'g', 'e', 's', 't'] _ (by decide)]
  rw [splitOnChar_of_not_mem '_' (decRepr ts) (und_not_mem_decRepr ts)]

theorem cypherNameField3_episodeName (u : String) (ts : Nat) (hu : noUnd u) :
    cypherNameField3 (episodeName u ts) = some ts := by
  rw [cypherNameField3, splitOnChar_episodeName u ts hu]
  simpa using parse_decRepr ts

theorem startsWith_episodeName (u o : String) (ts : Nat) (hu : noUnd u)
    (ho : noUnd o) :
    cypherStartsWith (episodeName o ts) (userIngestPre u) = true ↔ o = u := by
  constructor
  · intro h
    rw [cypherStartsWith, List.isPrefixOf_iff_prefix] at h
    rw [episodeName_data, userIngestPre_data] at h
    rw [List.prefix_append_right_inj] at h
    rw [List.cons_prefix_cons] at h
    have := append_sep_isPre '_' u.data o.data
      ['I', 'n', 'g', 'e', 's', 't', '_']
      (['I', 'n', 'g', 'e', 's', 't'] ++ '_' :: decRepr ts) hu ho h.2
    exact (strData_inj o u this.symm)
  · intro h
    subst h
    rw [cypherStartsWith, List.isPrefixOf_iff_prefix, episodeName_eq_pre_append]
    exact List.prefix_append _ _

theorem slatedForDelete_eq (u : String) (cutoff : Int) (e : EpisodicNode)
    (hu : noUnd u) (he : noUnd e.owner) :
    slatedForDelete u cutoff e
      = (e.owner == u && decide ((e.createdAt : Int) < cutoff)) := by
  unfold slatedForDelete
  by_cases ho : e.owner = u
  · have h1 : cypherStartsWith e.name (userIngestPre u) = true :=
      (startsWith_episodeName u e.owner e.createdAt hu he).mpr ho
    have h2 : cypherNameField3 e.name = some e.createdAt :=
      cypherNameField3_episodeName e.owner e.createdAt he
    simp only [EpisodicNode.name] at h1 h2 ⊢
    rw [h1, h2]
    simp [ho]
  · have h1 : cypherStartsWith e.name (userIngestPre u) = false := by
      rw [← Bool.not_eq_true]
      intro hc
      exact ho ((startsWith_episodeName u e.owner e.createdAt hu he).mp hc)
    simp only [EpisodicNode.name] at h1 ⊢
    rw [h1]
    simp [ho]

/-- C3 (amended): provided the requesting `user_id` and the creating user of
every episodic node contain no underscore, the prefix-scoped pass of
/delete_old removes exactly the requesting user's episodes with creation
timestamp before the cutoff, and leaves episodes inside the window and
episodes of every other user unchanged. -/
theorem graphiti_deleteOldPass_exact (nodes : List EpisodicNode) (u : String)
    (cutoff : Int) (hu : noUnd u) (hn : ∀ e ∈ nodes, noUnd e.owner) :
    deleteOldPass nodes u cutoff
      = nodes.filter
          (fun e => !(e.owner == u && decide ((e.createdAt : Int) < cutoff))) := by
  unfold deleteOldPass
  apply List.filter_congr
  intro e he
  rw [slatedForDelete_eq u cutoff e hu (hn e he)]

/-- Witness for the amended C3: user "alice", cutoff second 100 (i.e. request
arriving at epoch second 7776100): the old own episode is removed, the fresh
own episode and another user's old episode stay. -/
theorem graphiti_deleteOldPass_exact_witness :
    deleteOldPass [⟨"alice", 50⟩, ⟨"alice", 200⟩, ⟨"bob", 10⟩] "alice"
        (graphitiCutoff 7776100)
      = [⟨"alice", 200⟩, ⟨"bob", 10⟩] := by
  rw [graphiti_deleteOldPass_exact _ _ _ (by decide) (by decide)]
  decide

/-- C3 counterexample: the claim fails as stated once a user id contains an
underscore.  First input: the cleanup for user "alice" (cutoff second 100)
deletes the node of the DIFFERENT user "alice_Ingest_5" even though that
node's creation second 9000 is inside the window.  Second input: the cleanup
for user "a_b" leaves that same user's node of creation second 0 in place even
though it is outside the window. -/
theorem graphiti_deleteOldPass_cex :
    (deleteOldPass [⟨"alice_Ingest_5", 9000⟩] "alice" (graphitiCutoff 7776100) = []
      ∧ "alice_Ingest_5" ≠ "alice" ∧ ¬((9000 : Int) < graphitiCutoff 7776100))
    ∧ (deleteOldPass [⟨"a_b", 0⟩] "a_b" (graphitiCutoff 7776100) = [⟨"a_b", 0⟩]
      ∧ ((0 : Int) < graphitiCutoff 7776100)) := by
  exact ⟨⟨rfl, by decide, by decide⟩, rfl, by decide⟩

/-! ## Claims C4 and C10: the mem0 delete_old loop -/

theorem mem0DeleteLoop_append (parseIso : String → Option Int)
    (delRes : String → Except String Unit) (cutoff : Int) (pre : List Mem0Rec) :
    (∀ m ∈ pre, parsesOk parseIso m = true) →
    ∀ (rest : List Mem0Rec) (count : Nat) (errors deleted : List String),
    mem0DeleteLoop parseIso delRes cutoff (pre ++ rest) count errors deleted
      = mem0DeleteLoop parseIso delRes cutoff rest
          (count + (deletedListOf parseIso delRes cutoff pre).length)
          (errors ++ errListOf parseIso delRes cutoff pre)
          (deleted ++ deletedListOf parseIso delRes cutoff pre) := by
  induction pre with
  | nil =>
    intro _ rest count errors deleted
    simp [errListOf, deletedListOf]
  | cons m tail ih =>
    intro hp rest count errors deleted
    have hpm : parsesOk parseIso m = true := hp m (List.mem_cons_self m tail)
    have hptail : ∀ x ∈ tail, parsesOk parseIso x = true := fun x hx =>
      hp x (List.mem_cons_of_mem m hx)
    cases hca : m.createdAt with
    | none =>
      have hold : isOldRec parseIso cutoff m = false := by simp [isOldRec, hca]
      simp only [List.cons_append, mem0DeleteLoop, List.append_eq, hca]
      rw [ih hptail]
      simp [errListOf, deletedListOf, List.filter_cons, hold]
    | some s =>
      have hsome : (parseIso s).isSome := by simpa [parsesOk, hca] using hpm
      obtain ⟨t, ht⟩ := Option.isSome_iff_exists.mp hsome
      by_cases hlt : t < cutoff
      · have hold : isOldRec parseIso cutoff m = true := by
          simp [isOldRec, hca, ht, hlt]
        cases hdel : delRes m.mid with
        | ok uu =>
          simp only [List.cons_append, mem0DeleteLoop, List.append_eq, hca, ht, if_pos hlt, hdel]
          rw [ih hptail]
          simp [errListOf, deletedListOf, List.filter_cons, hold, hdel,
            List.filterMap_cons, Nat.add_assoc, Nat.add_comm, Nat.add_left_comm]
        | error e =>
          simp only [List.cons_append, mem0DeleteLoop, List.append_eq, hca, ht, if_pos hlt, hdel]
          rw [ih hptail]
          simp [errListOf, deletedListOf, List.filter_cons, hold, hdel,
            List.filterMap_cons]
      · have hold : isOldRec parseIso cutoff m = false := by
          simp [isOldRec, hca, ht, hlt]
        simp only [List.cons_append, mem0DeleteLoop, List.append_eq, hca, ht, if_neg hlt]
        rw [ih hptail]
        simp [errListOf, deletedListOf, List.filter_cons, hold]

theorem mem0DeleteLoop_spec (parseIso : String → Option Int)
    (delRes : String → Except String Unit) (cutoff : Int) (mems : List Mem0Rec)
    (hp : ∀ m ∈ mems, parsesOk parseIso m = true) (count : Nat)
    (errors deleted : List String) :
    mem0DeleteLoop parseIso delRes cutoff mems count errors deleted
      = ((if (errors ++ errListOf parseIso delRes cutoff mems).isEmpty then
            Mem0DeleteResp.ok200
              (count + (deletedListOf parseIso delRes cutoff mems).length)
          else
            Mem0DeleteResp.multi207
              (count + (deletedListOf parseIso delRes cutoff mems).length)
              (errors ++ errListOf parseIso delRes cutoff mems)),
          deleted ++ deletedListOf parseIso delRes cutoff mems) := by
  have h := mem0DeleteLoop_append parseIso delRes cutoff mems hp [] count errors deleted
  rw [List.append_nil] at h
  rw [h, mem0DeleteLoop]
  cases he : (errors ++ errListOf parseIso delRes cutoff mems).isEmpty <;> simp [he]

theorem old_split_length (parseIso : String → Option Int)
    (delRes : String → Except String Unit) (cutoff : Int) (mems : List Mem0Rec) :
    (mems.filter (isOldRec parseIso cutoff)).length
      = (errListOf parseIso delRes cutoff mems).length
        + (deletedListOf parseIso delRes cutoff mems).length := by
  unfold errListOf deletedListOf
  induction mems.filter (isOldRec parseIso cutoff) with
  | nil => rfl
  | cons m t ih =>
    cases h : delRes m.mid <;> simp [List.filterMap_cons, h] <;> omega

theorem errListOf_length (parseIso : String → Option Int)
    (delRes : String → Except String Unit) (cutoff : Int) (mems : List Mem0Rec) :
    (errListOf parseIso delRes cutoff mems).length
      = ((mems.filter (isOldRec parseIso cutoff)).filter
          (fun m => delFails delRes m.mid)).length := by
  unfold errListOf
  induction mems.filter (isOldRec parseIso cutoff) with
  | nil => rfl
  | cons m t ih =>
    cases h : delRes m.mid <;>
      simp [List.filterMap_cons, List.filter_cons, h, ih, delFails]

/-- C4: over the fetched records, with every present created_at parsing, let N
be the number of records older than the 90-day cutoff and J the number of
those whose delete call fails.  If J = 0 the response is the 200 success with
deleted_count = N; if J > 0 the response is the 207 partial success with
deleted_count = N - J and an error list of exactly J entries. -/
theorem mem0_delete_old_counts (parseIso : String → Option Int)
    (delRes : String → Except String Unit) (userMemories : List Mem0Rec)
    (now : Int)
    (hp : ∀ m ∈ userMemories, parsesOk parseIso m = true) :
    ((∀ m ∈ userMemories.filter (isOldRec parseIso (now - 90 * 86400)),
        delFails delRes m.mid = false) →
      (mem0DeleteOld parseIso delRes userMemories now).1
        = Mem0DeleteResp.ok200
            (userMemories.filter (isOldRec parseIso (now - 90 * 86400))).length)
    ∧ (∀ J : Nat,
        J = ((userMemories.filter (isOldRec parseIso (now - 90 * 86400))).filter
              (fun m => delFails delRes m.mid)).length →
        0 < J →
        ∃ errs : List String,
          (mem0DeleteOld parseIso delRes userMemories now).1
            = Mem0DeleteResp.multi207
                ((userMemories.filter
                    (isOldRec parseIso (now - 90 * 86400))).length - J) errs
          ∧ errs.length = J) := by
  constructor
  · intro hok
    have herr : errListOf parseIso delRes (now - 90 * 86400) userMemories = [] := by
      rw [← List.length_eq_zero, errListOf_length]
      rw [List.length_eq_zero, List.filter_eq_nil_iff]
      intro m hm
      simp [hok m hm]
    rw [mem0DeleteOld, mem0DeleteLoop_spec parseIso delRes _ _ hp]
    have hlen := old_split_length parseIso delRes (now - 90 * 86400) userMemories
    rw [herr] at hlen
    rw [herr]
    simp only [List.nil_append, List.append_nil, List.isEmpty_nil, if_true, zero_add]
    congr 1
    simp only [List.length_nil] at hlen
    omega
  · intro J hJ hpos
    refine ⟨errListOf parseIso delRes (now - 90 * 86400) userMemories, ?_, ?_⟩
    · rw [mem0DeleteOld, mem0DeleteLoop_spec parseIso delRes _ _ hp]
      have hne : (errListOf parseIso delRes (now - 90 * 86400) userMemories).isEmpty
          = false := by
        rw [List.isEmpty_eq_false_iff_exists_mem]
        have hlenpos : 0 < (errListOf parseIso delRes (now - 90 * 86400)
            userMemories).length := by
          rw [errListOf_length, ← hJ]; exact hpos
        obtain ⟨x, hx⟩ := List.exists_mem_of_ne_nil _
          (List.ne_nil_of_length_pos hlenpos)
        exact ⟨x, hx⟩
      have hlen := old_split_length parseIso delRes (now - 90 * 86400) userMemories
      have hJlen : J = (errListOf parseIso delRes (now - 90 * 86400)
          userMemories).length := by rw [hJ, errListOf_length]
      simp only [List.nil_append, hne, if_neg (by simp : ¬(false = true)), zero_add]
      congr 1
      omega
    · rw [hJ, errListOf_length]

/-- Witness for C4 at a concrete batch: records at seconds 0 and 50 are older
than cutoff second 100, the record at second 1000 is inside the window, one
record has no created_at; all deletes succeed, so the response is the 200
success reporting both old records deleted. -/
theorem mem0_delete_old_counts_witness :
    (mem0DeleteOld
        (fun s => if s == "a" then some 0 else if s == "b" then some 50
          else if s == "c" then some 1000 else none)
        (fun _ => Except.ok ())
        [⟨"m1", none, some "a"⟩, ⟨"m2", none, some "b"⟩,
          ⟨"m3", none, some "c"⟩, ⟨"m4", none, none⟩]
        (90 * 86400 + 100)).1
      = Mem0DeleteResp.ok200
          ([⟨"m1", none, some "a"⟩, ⟨"m2", none, some "b"⟩,
            ⟨"m3", none, some "c"⟩, ⟨"m4", none, none⟩].filter
            (isOldRec (fun s => if s == "a" then some 0 else if s == "b" then some 50
              else if s == "c" then some 1000 else none)
              (90 * 86400 + 100 - 90 * 86400))).length :=
  (mem0_delete_old_counts _ _ _ _ (by decide)).1 (by decide)

/-- C10: the per-record error collection of the mem0 /delete_old loop covers
only the delete call.  First conjunct: a record with no created_at is skipped
with no effect on the count, the error list or the performed deletions.
Second conjunct: a record whose created_at fails ISO parsing aborts the whole
request into the 500 response, whose payload carries no deleted count and no
error list, while the deletions already performed on the records before it
(the second component of the result) persist. -/
theorem mem0_delete_error_scope :
    (∀ (parseIso : String → Option Int) (delRes : String → Except String Unit)
        (cutoff : Int) (r : Mem0Rec) (rest : List Mem0Rec) (count : Nat)
        (errors deleted : List String), r.createdAt = none →
      mem0DeleteLoop parseIso delRes cutoff (r :: rest) count errors deleted
        = mem0DeleteLoop parseIso delRes cutoff rest count errors deleted)
    ∧ (∀ (parseIso : String → Option Int) (delRes : String → Except String Unit)
        (pre post : List Mem0Rec) (bad : Mem0Rec) (s : String) (now : Int),
        bad.createdAt = some s → parseIso s = none →
        (∀ m ∈ pre, parsesOk parseIso m = true) →
      mem0DeleteOld parseIso delRes (pre ++ bad :: post) now
        = (Mem0DeleteResp.err500 ("Invalid isoformat string: " ++ s),
           deletedListOf parseIso delRes (now - 90 * 86400) pre)) := by
  constructor
  · intro parseIso delRes cutoff r rest count errors deleted h
    simp only [mem0DeleteLoop, h]
  · intro parseIso delRes pre post bad s now hca hparse hp
    rw [mem0DeleteOld, mem0DeleteLoop_append parseIso delRes _ pre hp]
    simp only [mem0DeleteLoop, hca, hparse, List.nil_append]

/-- Witness for C10: the batch [good, bad, good] with an unparseable middle
record yields the 500 response while the first record's delete persists. -/
theorem mem0_delete_error_scope_witness :
    mem0DeleteOld (fun s => if s == "ok1" then some 0 else none)
        (fun _ => Except.ok ())
        ([⟨"p1", none, some "ok1"⟩] ++ ⟨"bx", none, some "bad"⟩ ::
          [⟨"p2", none, some "ok1"⟩]) (90 * 86400 + 100)
      = (Mem0DeleteResp.err500 ("Invalid isoformat string: " ++ "bad"),
         deletedListOf (fun s => if s == "ok1" then some 0 else none)
           (fun _ => Except.ok ()) (90 * 86400 + 100 - 90 * 86400)
           [⟨"p1", none, some "ok1"⟩]) :=
  mem0_delete_error_scope.2 _ _ [⟨"p1", none, some "ok1"⟩]
    [⟨"p2", none, some "ok1"⟩] ⟨"bx", none, some "bad"⟩ "bad" (90 * 86400 + 100)
    rfl rfl (by decide)

/-! ## Claim C6: the mem0 category soft filter -/

theorem mem0Refine_eq_spec (c : String) (hc : c ≠ "") (cands : List Mem0Rec) :
    mem0Refine (some c) cands = mem0CategoryPreferenceSpec c cands := by
  unfold mem0Refine mem0CategoryPreferenceSpec
  have hcb : (c == "") = false := by
    rw [beq_eq_false_iff_ne]
    exact hc
  cases hcands : cands.isEmpty
  · by_cases hany : cands.any (fun m => m.category == some c)
    · obtain ⟨x, hx, hpx⟩ := List.any_eq_true.mp hany
      have hfil : (cands.filter (fun m : Mem0Rec => m.category == some c)).isEmpty
          = false := by
        rw [List.isEmpty_eq_false_iff_exists_mem]
        exact ⟨x, List.mem_filter.mpr ⟨hx, hpx⟩⟩
      simp [hcb, hcands, hany, hfil]
    · have hfil : cands.filter (fun m : Mem0Rec => m.category == some c) = [] := by
        rw [List.filter_eq_nil_iff]
        intro m hm hb
        exact hany (List.any_eq_true.mpr ⟨m, hm, hb⟩)
      simp [hcb, hcands, hany, hfil]
  · have : cands = [] := List.isEmpty_iff.mp hcands
    subst this
    simp

/-- C6 (amended): a mem0 /search request whose category is a non-empty string
is answered from a library search by query and user id alone, after which the
category acts purely as a preference: when at least one candidate's stored
category matches, exactly the matches survive, otherwise the candidate set is
kept unchanged; in every case (any category, any candidates) at most 5 results
are returned. -/
theorem mem0_search_soft_filter :
    (∀ (libSearch : String → String → Mem0RawResp) (q u c : String), c ≠ "" →
      mem0SearchHandler true libSearch (some ⟨some q, some u, some c⟩)
        = Mem0SearchResult.ok200
            (mem0CategoryPreferenceSpec c (normalizeResp (libSearch q u))))
    ∧ (∀ (cat : Option String) (cands : List Mem0Rec),
        (mem0Refine cat cands).length ≤ 5) := by
  constructor
  · intro libSearch q u c hc
    simp only [mem0SearchHandler, Bool.not_true, Bool.false_eq_true, if_false]
    rw [mem0Refine_eq_spec c hc]
  · intro cat cands
    unfold mem0Refine
    exact List.length_take_le 5 _

/-- Witness for the amended C6: category "work" keeps exactly the matching
candidate out of two. -/
theorem mem0_search_soft_filter_witness :
    mem0SearchHandler true
        (fun _ _ => Mem0RawResp.dictResp
          [⟨"m1", some "work", none⟩, ⟨"m2", some "play", none⟩])
        (some ⟨some "q", some "u", some "work"⟩)
      = Mem0SearchResult.ok200
          (mem0CategoryPreferenceSpec "work"
            (normalizeResp ((fun _ _ => Mem0RawResp.dictResp
              [⟨"m1", some "work", none⟩, ⟨"m2", some "play", none⟩])
              ("q" : String) ("u" : String)))) :=
  mem0_search_soft_filter.1
    (fun _ _ => Mem0RawResp.dictResp
      [⟨"m1", some "work", none⟩, ⟨"m2", some "play", none⟩])
    "q" "u" "work" (by decide)

/-- C6 counterexample: a request that supplies the category "" (a supplied,
but empty, category string) with a candidate whose stored category is exactly
"" does NOT have its candidate set replaced by the matches: the handler's
truthiness test `if category and candidates` skips the preference step, and
both candidates are returned. -/
theorem mem0_search_soft_filter_cex :
    mem0SearchHandler true
        (fun _ _ => Mem0RawResp.dictResp
          [⟨"m1", some "", none⟩, ⟨"m2", some "x", none⟩])
        (some ⟨some "q", some "u", some ""⟩)
      = Mem0SearchResult.ok200 [⟨"m1", some "", none⟩, ⟨"m2", some "x", none⟩]
    ∧ (⟨"m1", some "", none⟩ : Mem0Rec).category = some ""
    ∧ (⟨"m2", some "x", none⟩ : Mem0Rec).category ≠ some "" := by
  exact ⟨rfl, rfl, by decide⟩

/-! ## Claims C7 and C9: add/ingest validation -/

/-- C7: a payload missing the data key or the user_id key is rejected with the
400 response by all three add/ingest handlers, whose result in that case is
the bare rejection and not an invocation of the wrapped library (services B
and C taken in their initialized state, which for service B is the only state
in which the app serves requests). -/
theorem add_missing_field_rejected (pc : CogneeAddPayload)
    (pg : GraphitiIngestPayload) (pm : Mem0AddPayload) (now : Nat)
    (hc : pc.data = none ∨ pc.userId = none)
    (hg : pg.data = none ∨ pg.userId = none)
    (hm : pm.data = none ∨ pm.userId = none) :
    cogneeAdd pc = CogneeAddResult.badRequest400
    ∧ graphitiIngest true now pg = GraphitiIngestResult.badRequest400
    ∧ mem0Add true (some pm) = Mem0AddResult.badRequest400 := by
  refine ⟨?_, ?_, ?_⟩
  · rcases hc with h | h <;> simp [cogneeAdd, optTruthy, h]
  · rcases hg with h | h <;> simp [graphitiIngest, optTruthy, h]
  · rcases hm with h | h
    · simp [mem0Add, h]
    · cases hd : pm.data <;> simp [mem0Add, h, hd]

/-- Witness for C7: the three handlers each reject a concrete payload with a
missing field. -/
theorem add_missing_field_rejected_witness :
    cogneeAdd ⟨none, some "u", none⟩ = CogneeAddResult.badRequest400
    ∧ graphitiIngest true 5 ⟨some "text", none, none⟩
        = GraphitiIngestResult.badRequest400
    ∧ mem0Add true (some ⟨none, some "u", none⟩) = Mem0AddResult.badRequest400 :=
  add_missing_field_rejected ⟨none, some "u", none⟩ ⟨some "text", none, none⟩
    ⟨none, some "u", none⟩ 5 (Or.inl rfl) (Or.inr rfl) (Or.inl rfl)

/-- C9: the mem0 /add handler 400s exactly when the body is absent or one of
the two keys is absent; present-but-empty values pass validation and the
wrapped add is invoked with them, whereas the cognee and graphiti handlers
reject an empty-string data or user_id. -/
theorem mem0_add_presence_only :
    (∀ p : Option Mem0AddPayload,
      mem0Add true p = Mem0AddResult.badRequest400
        ↔ (p = none ∨ ∃ q, p = some q ∧ (q.data = none ∨ q.userId = none)))
    ∧ (∀ (q : Mem0AddPayload) (d u : String), q.data = some d → q.userId = some u →
        mem0Add true (some q) = Mem0AddResult.invoked d u (q.category.getD "general"))
    ∧ (∀ pc : CogneeAddPayload, (pc.data = some "" ∨ pc.userId = some "") →
        cogneeAdd pc = CogneeAddResult.badRequest400)
    ∧ (∀ (now : Nat) (pg : GraphitiIngestPayload),
        (pg.data = some "" ∨ pg.userId = some "") →
        graphitiIngest true now pg = GraphitiIngestResult.badRequest400) := by
  refine ⟨?_, ?_, ?_, ?_⟩
  · intro p
    cases p with
    | none => simp [mem0Add]
    | some q =>
      cases q with
      | mk d u cat => cases d <;> cases u <;> simp [mem0Add]
  · intro q d u hd hu
    cases q with
    | mk dd uu cat =>
      simp only at hd hu
      subst hd
      subst hu
      simp [mem0Add]
  · intro pc h
    rcases h with h | h <;> simp [cogneeAdd, optTruthy, h]
  · intro now pg h
    rcases h with h | h <;> simp [graphitiIngest, optTruthy, h]

/-- Witness for C9: both keys present with empty-string values invoke the
wrapped add with those empty strings and the default category. -/
theorem mem0_add_presence_only_witness :
    mem0Add true (some ⟨some "", some "", none⟩)
      = Mem0AddResult.invoked "" ""
          ((none : Option String).getD "general") :=
  mem0_add_presence_only.2.1 ⟨some "", some "", none⟩ "" "" rfl rfl

/-! ## Claim C8: health endpoints -/

/-- C8 (amended): service B's /health is healthy exactly when both its
singletons are initialized; service A's /health handler does not consult any
initialization state and always takes its exception branch (the shadowed
datetime import), returning the 500 unhealthy response; service C registers
no /health route at all, while services A and B do. -/
theorem health_reflects_init :
    (∀ g d : Bool,
      graphitiHealth g d = HealthResult.healthy200 ↔ (g = true ∧ d = true))
    ∧ (∀ b : Bool, cogneeHealth b = HealthResult.unhealthy500)
    ∧ "/health" ∉ mem0Routes
    ∧ "/health" ∈ graphitiRoutes ∧ "/health" ∈ cogneeRoutes := by
  refine ⟨?_, ?_, by decide, by decide, by decide⟩
  · intro g d
    cases g <;> cases d <;> simp [graphitiHealth]
  · intro b
    rfl

/-- Witness for the amended C8 on the fully initialized service B. -/
theorem health_reflects_init_witness :
    graphitiHealth true true = HealthResult.healthy200 :=
  (health_reflects_init.1 true true).mpr ⟨rfl, rfl⟩

/-- C8 counterexample: with the cognee setup initialized, service A's /health
still does not report healthy (it always returns the 500 unhealthy branch),
and service C has no /health route to answer at all. -/
theorem health_reflects_init_cex :
    cogneeHealth true ≠ HealthResult.healthy200 ∧ "/health" ∉ mem0Routes := by
  exact ⟨by decide, by decide⟩

/-! ## Claims C2 and C5: the cognee /delete transaction -/

theorem bool_eq_of_iff {a b : Bool} (h : a = true ↔ b = true) : a = b :=
  Bool.coe_iff_coe.mp h

theorem filter_eq_replicate_count {α : Type} (l : List α) (p : α → Bool) (a : α)
    (h : ∀ x ∈ l, p x = true → x = a) :
    l.filter p = List.replicate (l.countP p) a := by
  induction l with
  | nil => rfl
  | cons x t ih =>
    have ht : ∀ y ∈ t, p y = true → y = a := fun y hy => h y (List.mem_cons_of_mem x hy)
    cases hx : p x with
    | false => simp [List.filter_cons, List.countP_cons, hx, ih ht]
    | true =>
      have hxa : x = a := h x (List.mem_cons_self x t) hx
      subst hxa
      simp [List.filter_cons, List.countP_cons, hx, ih ht, List.replicate_succ]

theorem contains_iff_mem {α : Type} [BEq α] [LawfulBEq α] (l : List α) (a : α) :
    l.contains a = true ↔ a ∈ l :=
  List.elem_iff

theorem inner_join_single (db : CogneeDB) (dsId : Nat) (cutoff : Int)
    (d : DataRow) (h3 : (dsLinkedIds db dsId).Nodup) :
    (db.datasetData.filter (fun dd =>
        dd.dataId == d.id && [dsId].contains dd.datasetId &&
          decide (d.updatedAt < cutoff))).map (fun _ => d.id)
      = if isOldLinked db dsId cutoff d then [d.id] else [] := by
  by_cases hold : d.updatedAt < cutoff
  · have hpred : ∀ dd ∈ db.datasetData,
        (dd.dataId == d.id && [dsId].contains dd.datasetId &&
          decide (d.updatedAt < cutoff))
          = (dd.dataId == d.id && dd.datasetId == dsId) := by
      intro dd _
      cases h1 : (dd.dataId == d.id) <;> cases h2 : (dd.datasetId == dsId) <;>
        simp [List.contains, List.elem, hold, h1, h2]
    rw [List.filter_congr hpred]
    have hmemeq : ∀ dd ∈ db.datasetData,
        (dd.dataId == d.id && dd.datasetId == dsId) = true
          → dd = (⟨dsId, d.id⟩ : DatasetDataRow) := by
      intro dd _ hdd
      rw [Bool.and_eq_true, beq_iff_eq, beq_iff_eq] at hdd
      cases dd
      simp_all
    rw [filter_eq_replicate_count _ _ _ hmemeq, List.map_replicate]
    have hcnt : db.datasetData.countP
        (fun dd => dd.dataId == d.id && dd.datasetId == dsId)
        = List.count d.id (dsLinkedIds db dsId) := by
      rw [List.count_eq_countP]
      unfold dsLinkedIds
      rw [List.countP_map, ← List.countP_filter]
      rfl
    rw [hcnt]
    by_cases hmem : d.id ∈ dsLinkedIds db dsId
    · rw [List.count_eq_one_of_mem h3 hmem]
      have hb : isOldLinked db dsId cutoff d = true := by
        unfold isOldLinked
        rw [Bool.and_eq_true]
        exact ⟨(contains_iff_mem _ _).mpr hmem, by simpa using hold⟩
      rw [if_pos hb]
      rfl
    · rw [List.count_eq_zero_of_not_mem hmem]
      have hb : isOldLinked db dsId cutoff d = false := by
        unfold isOldLinked
        rw [Bool.and_eq_false_iff]
        left
        rw [← Bool.not_eq_true]
        exact fun hc => hmem ((contains_iff_mem _ _).mp hc)
      rw [if_neg (by simp [hb])]
      rfl
  · have hpred : ∀ dd ∈ db.datasetData,
        (dd.dataId == d.id && [dsId].contains dd.datasetId &&
          decide (d.updatedAt < cutoff)) = false := by
      intro dd _
      simp [hold]
    rw [List.filter_congr hpred]
    have hb : isOldLinked db dsId cutoff d = false := by
      unfold isOldLinked
      simp [hold]
    rw [if_neg (by simp [hb])]
    simp

theorem sqlOldDataIds_single (db : CogneeDB) (dsId : Nat) (cutoff : Int)
    (h3 : (dsLinkedIds db dsId).Nodup) :
    sqlOldDataIds db.dataRows db.datasetData [dsId] cutoff
      = (oldRowsOf db dsId cutoff).map DataRow.id := by
  unfold sqlOldDataIds oldRowsOf
  induction db.dataRows with
  | nil => rfl
  | cons d t ih =>
    rw [List.foldr_cons, ih, inner_join_single db dsId cutoff d h3,
      List.filter_cons]
    cases hio : isOldLinked db dsId cutoff d <;> simp [hio]

theorem mem_oldIds_iff (db : CogneeDB) (dsId : Nat) (cutoff : Int)
    (h2 : (db.dataRows.map DataRow.id).Nodup) (d : DataRow)
    (hd : d ∈ db.dataRows) :
    d.id ∈ (oldRowsOf db dsId cutoff).map DataRow.id
      ↔ isOldLinked db dsId cutoff d = true := by
  constructor
  · intro h
    obtain ⟨d2, hd2, hid⟩ := List.mem_map.mp h
    obtain ⟨hd2mem, hd2old⟩ := List.mem_filter.mp hd2
    have : d2 = d := List.inj_on_of_nodup_map h2 hd2mem hd hid
    rw [← this]
    exact hd2old
  · intro h
    exact List.mem_map.mpr ⟨d, List.mem_filter.mpr ⟨hd, h⟩, rfl⟩

theorem dataRows_after_filter (db : CogneeDB) (dsId : Nat) (cutoff : Int)
    (h2 : (db.dataRows.map DataRow.id).Nodup) :
    db.dataRows.filter (fun d =>
        !((oldRowsOf db dsId cutoff).map DataRow.id).contains d.id)
      = db.dataRows.filter (fun d => !(isOldLinked db dsId cutoff d)) := by
  apply List.filter_congr
  intro d hd
  have : ((oldRowsOf db dsId cutoff).map DataRow.id).contains d.id
      = isOldLinked db dsId cutoff d := by
    apply bool_eq_of_iff
    rw [contains_iff_mem]
    exact mem_oldIds_iff db dsId cutoff h2 d hd
  rw [this]

theorem length_filter_not_add {α : Type} (l : List α) (p : α → Bool) :
    (l.filter (fun x => !p x)).length + (l.filter p).length = l.length := by
  have h := List.length_eq_countP_add_countP p l
  have hc : l.countP (fun a => decide (¬p a = true))
      = l.countP (fun x => !p x) := by
    apply List.countP_congr
    intro x _
    cases hx : p x <;> simp [hx]
  rw [List.countP_eq_length_filter, hc, List.countP_eq_length_filter] at h
  omega

theorem oldIds_nodup (db : CogneeDB) (dsId : Nat) (cutoff : Int)
    (h2 : (db.dataRows.map DataRow.id).Nodup) :
    ((oldRowsOf db dsId cutoff).map DataRow.id).Nodup := by
  have hsub : ((oldRowsOf db dsId cutoff).map DataRow.id).Sublist
      (db.dataRows.map DataRow.id) :=
    List.Sublist.map DataRow.id (List.filter_sublist db.dataRows)
  exact List.Nodup.sublist hsub h2

theorem countP_old_linked (db : CogneeDB) (dsId : Nat) (cutoff : Int)
    (h2 : (db.dataRows.map DataRow.id).Nodup)
    (h3 : (dsLinkedIds db dsId).Nodup) :
    (dsLinkedIds db dsId).countP
        (fun i => ((oldRowsOf db dsId cutoff).map DataRow.id).contains i)
      = (oldRowsOf db dsId cutoff).length := by
  rw [List.countP_eq_length_filter]
  have hperm : ((dsLinkedIds db dsId).filter
      (fun i => ((oldRowsOf db dsId cutoff).map DataRow.id).contains i)).Perm
      ((oldRowsOf db dsId cutoff).map DataRow.id) := by
    rw [List.perm_ext_iff_of_nodup (h3.filter _) (oldIds_nodup db dsId cutoff h2)]
    intro a
    constructor
    · intro ha
      obtain ⟨_, hc⟩ := List.mem_filter.mp ha
      exact (contains_iff_mem _ _).mp hc
    · intro ha
      apply List.mem_filter.mpr
      refine ⟨?_, (contains_iff_mem _ _).mpr ha⟩
      obtain ⟨d2, hd2, hid⟩ := List.mem_map.mp ha
      have hold : isOldLinked db dsId cutoff d2 = true :=
        (List.mem_filter.mp hd2).2
      rw [isOldLinked, Bool.and_eq_true] at hold
      rw [← hid]
      exact (contains_iff_mem _ _).mp hold.1
  rw [hperm.length_eq, List.length_map]

theorem oldRows_le_linked (db : CogneeDB) (dsId : Nat) (cutoff : Int)
    (h2 : (db.dataRows.map DataRow.id).Nodup)
    (h3 : (dsLinkedIds db dsId).Nodup) :
    (oldRowsOf db dsId cutoff).length ≤ (dsLinkedIds db dsId).length := by
  rw [← countP_old_linked db dsId cutoff h2 h3]
  exact List.countP_le_length _

theorem junction_filter_comm (datasetData : List DatasetDataRow)
    (oldIds : List Nat) (dsId : Nat) :
    datasetData.filter (fun dd =>
        !(oldIds.contains dd.dataId && [dsId].contains dd.datasetId))
      = datasetData.filter (fun dd =>
          !(dd.datasetId == dsId && oldIds.contains dd.dataId)) := by
  apply List.filter_congr
  intro dd _
  cases h1 : oldIds.contains dd.dataId <;> cases h2 : (dd.datasetId == dsId) <;>
    simp [List.contains, List.elem, h1, h2]

theorem remaining_junction_count (db : CogneeDB) (dsId : Nat) (cutoff : Int)
    (h2 : (db.dataRows.map DataRow.id).Nodup)
    (h3 : (dsLinkedIds db dsId).Nodup) :
    (db.datasetData.filter (fun dd =>
        !(dd.datasetId == dsId &&
          ((oldRowsOf db dsId cutoff).map DataRow.id).contains dd.dataId))).countP
      (fun dd => dd.datasetId == dsId)
      = (dsLinkedIds db dsId).length - (oldRowsOf db dsId cutoff).length := by
  rw [List.countP_filter]
  have hpt : ∀ dd ∈ db.datasetData,
      ((dd.datasetId == dsId) &&
        !(dd.datasetId == dsId &&
          ((oldRowsOf db dsId cutoff).map DataRow.id).contains dd.dataId)) = true
      ↔ ((!((oldRowsOf db dsId cutoff).map DataRow.id).contains dd.dataId) &&
          (dd.datasetId == dsId)) = true := by
    intro dd _
    cases hA : (dd.datasetId == dsId) <;>
      cases hC : ((oldRowsOf db dsId cutoff).map DataRow.id).contains dd.dataId <;>
        simp [hA, hC]
  rw [List.countP_congr hpt, ← List.countP_filter]
  have hmapped : (db.datasetData.filter
      (fun dd => dd.datasetId == dsId)).countP
      (fun dd => !((oldRowsOf db dsId cutoff).map DataRow.id).contains dd.dataId)
      = (dsLinkedIds db dsId).countP
        (fun i => !((oldRowsOf db dsId cutoff).map DataRow.id).contains i) := by
    unfold dsLinkedIds
    rw [List.countP_map]
    rfl
  rw [hmapped]
  have hsplit := List.length_eq_countP_add_countP
    (fun i => ((oldRowsOf db dsId cutoff).map DataRow.id).contains i)
    (dsLinkedIds db dsId)
  have hnot : (dsLinkedIds db dsId).countP
      (fun a => decide (¬((oldRowsOf db dsId cutoff).map DataRow.id).contains a
        = true))
      = (dsLinkedIds db dsId).countP
        (fun i => !((oldRowsOf db dsId cutoff).map DataRow.id).contains i) := by
    apply List.countP_congr
    intro x _
    cases hx : ((oldRowsOf db dsId cutoff).map DataRow.id).contains x <;> simp [hx]
  rw [hnot] at hsplit
  rw [countP_old_linked db dsId cutoff h2 h3] at hsplit
  omega

theorem filter_by_unique_row (datasets : List DatasetRow) (ds : DatasetRow)
    (h5 : (datasets.map DatasetRow.id).Nodup) (hmem : ds ∈ datasets)
    (p : DatasetRow → Bool) (hp : ∀ r, p r = true → r.id = ds.id) :
    datasets.filter p = if p ds then [ds] else [] := by
  have heq : ∀ r ∈ datasets, p r = true → r = ds := by
    intro r hr hpr
    exact List.inj_on_of_nodup_map h5 hr hmem (hp r hpr)
  rw [filter_eq_replicate_count datasets p ds heq]
  cases hpds : p ds with
  | true =>
    have hone : datasets.countP p = 1 := by
      have hle : datasets.countP p ≤ datasets.countP (fun r => r == ds) := by
        apply List.countP_mono_left
        intro r hr hpr
        rw [beq_iff_eq]
        exact heq r hr hpr
      rw [← List.count_eq_countP] at hle
      rw [List.count_eq_one_of_mem (h5.of_map) hmem] at hle
      have hge : 1 ≤ datasets.countP p := by
        have : ds ∈ datasets.filter p := List.mem_filter.mpr ⟨hmem, hpds⟩
        have hlen : 0 < (datasets.filter p).length :=
          List.length_pos_of_mem this
        rw [List.countP_eq_length_filter]
        omega
      omega
    rw [hone]
    rfl
  | false =>
    have hzero : datasets.countP p = 0 := by
      rw [List.countP_eq_length_filter, List.length_eq_zero,
        List.filter_eq_nil_iff]
      intro r hr hpr
      rw [heq r hr hpr] at hpr
      rw [hpds] at hpr
      exact Bool.false_ne_true hpr
    rw [hzero]
    rfl

theorem dataAfterDelete_eq (db : CogneeDB) (dsId : Nat) (cutoff : Int)
    (h2 : (db.dataRows.map DataRow.id).Nodup)
    (h3 : (dsLinkedIds db dsId).Nodup) :
    dataAfterDelete db.dataRows
        (sqlOldDataIds db.dataRows db.datasetData [dsId] cutoff)
      = db.dataRows.filter (fun d => !(isOldLinked db dsId cutoff d)) := by
  rw [sqlOldDataIds_single db dsId cutoff h3]
  unfold dataAfterDelete
  rw [List.length_map]
  by_cases hK : (oldRowsOf db dsId cutoff).length > 0
  · rw [if_pos hK]
    exact dataRows_after_filter db dsId cutoff h2
  · rw [if_neg hK]
    have hnil : oldRowsOf db dsId cutoff = [] :=
      List.length_eq_zero.mp (by omega)
    symm
    rw [List.filter_eq_self]
    intro d hd
    cases hio : isOldLinked db dsId cutoff d with
    | false => rfl
    | true =>
      have : d ∈ oldRowsOf db dsId cutoff :=
        List.mem_filter.mpr ⟨hd, hio⟩
      rw [hnil] at this
      exact absurd this (List.not_mem_nil d)

theorem junctionAfterDelete_eq (db : CogneeDB) (dsId : Nat) (cutoff : Int)
    (h3 : (dsLinkedIds db dsId).Nodup) :
    junctionAfterDelete db.datasetData
        (sqlOldDataIds db.dataRows db.datasetData [dsId] cutoff) [dsId]
      = db.datasetData.filter (fun dd =>
          !(dd.datasetId == dsId &&
            ((oldRowsOf db dsId cutoff).map DataRow.id).contains dd.dataId)) := by
  rw [sqlOldDataIds_single db dsId cutoff h3]
  unfold junctionAfterDelete
  rw [List.length_map]
  by_cases hK : (oldRowsOf db dsId cutoff).length > 0
  · rw [if_pos hK]
    exact junction_filter_comm _ _ _
  · rw [if_neg hK]
    have hnil : oldRowsOf db dsId cutoff = [] :=
      List.length_eq_zero.mp (by omega)
    rw [hnil]
    symm
    rw [List.filter_eq_self]
    intro dd _
    simp [List.contains]

theorem emptyDatasetIds_eq (db : CogneeDB) (ds : DatasetRow) (cutoff : Int)
    (h2 : (db.dataRows.map DataRow.id).Nodup)
    (h5 : (db.datasets.map DatasetRow.id).Nodup)
    (h3 : (dsLinkedIds db ds.id).Nodup) (hds_mem : ds ∈ db.datasets) :
    emptyDatasetIdsOf db.datasets [ds.id]
        (db.datasetData.filter (fun dd =>
          !(dd.datasetId == ds.id &&
            ((oldRowsOf db ds.id cutoff).map DataRow.id).contains dd.dataId)))
      = if (oldRowsOf db ds.id cutoff).length = (dsLinkedIds db ds.id).length
        then [ds.id] else [] := by
  unfold emptyDatasetIdsOf
  have hp : ∀ r : DatasetRow,
      ([ds.id].contains r.id &&
        ((db.datasetData.filter (fun dd =>
          !(dd.datasetId == ds.id &&
            ((oldRowsOf db ds.id cutoff).map DataRow.id).contains dd.dataId))).countP
          (fun dd => dd.datasetId == r.id) == 0)) = true → r.id = ds.id := by
    intro r hr
    rw [Bool.and_eq_true] at hr
    exact List.mem_singleton.mp ((contains_iff_mem _ _).mp hr.1)
  rw [filter_by_unique_row db.datasets ds h5 hds_mem _ hp]
  have hrem := remaining_junction_count db ds.id cutoff h2 h3
  have hKle := oldRows_le_linked db ds.id cutoff h2 h3
  have hcont : [ds.id].contains ds.id = true :=
    (contains_iff_mem _ _).mpr (List.mem_singleton_self _)
  by_cases hKN : (oldRowsOf db ds.id cutoff).length
      = (dsLinkedIds db ds.id).length
  · have hzero : (db.datasetData.filter (fun dd =>
        !(dd.datasetId == ds.id &&
          ((oldRowsOf db ds.id cutoff).map DataRow.id).contains dd.dataId))).countP
        (fun dd => dd.datasetId == ds.id) = 0 := by
      rw [hrem]
      omega
    rw [hzero, if_pos (by rw [hcont]; rfl), if_pos hKN]
    rfl
  · have hbeq : ((db.datasetData.filter (fun dd =>
        !(dd.datasetId == ds.id &&
          ((oldRowsOf db ds.id cutoff).map DataRow.id).contains dd.dataId))).countP
        (fun dd => dd.datasetId == ds.id) == 0) = false := by
      rw [hrem]
      have hz : (dsLinkedIds db ds.id).length
          - (oldRowsOf db ds.id cutoff).length ≠ 0 := by omega
      exact beq_eq_false_iff_ne.mpr hz
    rw [if_neg (by rw [hcont, hbeq]; simp), if_neg hKN]
    rfl

theorem depAfterCleanup_single (rows : List DepRow) (dsId : Nat) :
    depAfterCleanup rows [dsId]
      = rows.filter (fun r => !(r.datasetId == dsId)) := by
  unfold depAfterCleanup
  rw [if_pos (by rfl)]
  apply List.filter_congr
  intro r _
  cases h : (r.datasetId == dsId) <;> simp [List.contains, List.elem, h]

theorem depAfterCleanup_nil (rows : List DepRow) : depAfterCleanup rows [] = rows :=
  rfl

theorem datasetsAfterCleanup_single (datasets : List DatasetRow) (dsId : Nat) :
    datasetsAfterCleanup datasets [dsId]
      = datasets.filter (fun r => !(r.id == dsId)) := by
  unfold datasetsAfterCleanup
  rw [if_pos (by rfl)]
  apply List.filter_congr
  intro r _
  cases h : (r.id == dsId) <;> simp [List.contains, List.elem, h]

theorem datasetsAfterCleanup_nil (datasets : List DatasetRow) :
    datasetsAfterCleanup datasets [] = datasets :=
  rfl

theorem linked_rows_count (db : CogneeDB) (dsId : Nat)
    (h2 : (db.dataRows.map DataRow.id).Nodup)
    (h3 : (dsLinkedIds db dsId).Nodup)
    (h4 : ∀ i ∈ dsLinkedIds db dsId, ∃ d ∈ db.dataRows, d.id = i) :
    (db.dataRows.filter (fun d => (dsLinkedIds db dsId).contains d.id)).length
      = (dsLinkedIds db dsId).length := by
  have hnodupL : ((db.dataRows.filter
      (fun d => (dsLinkedIds db dsId).contains d.id)).map DataRow.id).Nodup :=
    List.Nodup.sublist
      (List.Sublist.map DataRow.id (List.filter_sublist db.dataRows)) h2
  have hperm : ((db.dataRows.filter
      (fun d => (dsLinkedIds db dsId).contains d.id)).map DataRow.id).Perm
      (dsLinkedIds db dsId) := by
    rw [List.perm_ext_iff_of_nodup hnodupL h3]
    intro a
    constructor
    · intro ha
      obtain ⟨d2, hd2, hid⟩ := List.mem_map.mp ha
      obtain ⟨_, hc⟩ := List.mem_filter.mp hd2
      rw [← hid]
      exact (contains_iff_mem _ _).mp hc
    · intro ha
      obtain ⟨d2, hd2, hid⟩ := h4 a ha
      apply List.mem_map.mpr
      refine ⟨d2, List.mem_filter.mpr ⟨hd2, ?_⟩, hid⟩
      rw [hid]
      exact (contains_iff_mem _ _).mpr ha
  have := hperm.length_eq
  rw [List.length_map] at this
  exact this

/-- C2: for a delete request whose composite names resolve to exactly the
dataset `ds` (with primary-key id columns and a duplicate-free junction list
whose data ids all exist), the transaction returns 200 reporting K, the number
of the dataset's data rows older than the cutoff, as data_entries_deleted;
exactly those K data rows and their junction rows are removed; and the dataset
row itself, together with its acls, dataset_database and pipeline_runs rows,
is removed if and only if K equals N, the dataset's total row count. -/
theorem cognee_delete_exact (db : CogneeDB) (names : List String) (cutoff : Int)
    (ds : DatasetRow)
    (h1 : db.datasets.filter (fun r => names.contains r.name) = [ds])
    (h2 : (db.dataRows.map DataRow.id).Nodup)
    (h5 : (db.datasets.map DatasetRow.id).Nodup)
    (h3 : (dsLinkedIds db ds.id).Nodup)
    (h4 : ∀ i ∈ dsLinkedIds db ds.id, ∃ d ∈ db.dataRows, d.id = i) :
    ∃ db1 : CogneeDB,
      (cogneeDeleteCore db names cutoff
        = CogneeDeleteResult.ok200 db1 (oldRowsOf db ds.id cutoff).length
            (if (oldRowsOf db ds.id cutoff).length = (dsLinkedIds db ds.id).length
              then 1 else 0))
      ∧ (db.dataRows.filter
          (fun d => (dsLinkedIds db ds.id).contains d.id)).length
          = (dsLinkedIds db ds.id).length
      ∧ db1.dataRows
          = db.dataRows.filter (fun d => !(isOldLinked db ds.id cutoff d))
      ∧ db1.dataRows.length + (oldRowsOf db ds.id cutoff).length
          = db.dataRows.length
      ∧ db1.datasetData = db.datasetData.filter (fun dd =>
          !(dd.datasetId == ds.id &&
            ((oldRowsOf db ds.id cutoff).map DataRow.id).contains dd.dataId))
      ∧ ((oldRowsOf db ds.id cutoff).length = (dsLinkedIds db ds.id).length →
          ds ∉ db1.datasets
          ∧ db1.datasets = db.datasets.filter (fun r => !(r.id == ds.id))
          ∧ db1.acls = db.acls.filter (fun r => !(r.datasetId == ds.id))
          ∧ db1.datasetDatabase
              = db.datasetDatabase.filter (fun r => !(r.datasetId == ds.id))
          ∧ db1.pipelineRuns
              = db.pipelineRuns.filter (fun r => !(r.datasetId == ds.id)))
      ∧ ((oldRowsOf db ds.id cutoff).length ≠ (dsLinkedIds db ds.id).length →
          ds ∈ db1.datasets ∧ db1.datasets = db.datasets
          ∧ db1.acls = db.acls
          ∧ db1.datasetDatabase = db.datasetDatabase
          ∧ db1.pipelineRuns = db.pipelineRuns) := by
  have hds_mem : ds ∈ db.datasets := by
    have hmem : ds ∈ db.datasets.filter (fun r => names.contains r.name) := by
      rw [h1]
      exact List.mem_singleton_self ds
    exact (List.mem_filter.mp hmem).1
  have hcore : cogneeDeleteCore db names cutoff
      = cogneeDeleteSteps db [ds.id] cutoff := by
    unfold cogneeDeleteCore
    rw [h1]
    rfl
  have hJ := junctionAfterDelete_eq db ds.id cutoff h3
  have hD := dataAfterDelete_eq db ds.id cutoff h2 h3
  have hE : emptyDatasetIdsOf db.datasets [ds.id]
      (junctionAfterDelete db.datasetData
        (sqlOldDataIds db.dataRows db.datasetData [ds.id] cutoff) [ds.id])
      = if (oldRowsOf db ds.id cutoff).length = (dsLinkedIds db ds.id).length
        then [ds.id] else [] := by
    rw [hJ]
    exact emptyDatasetIds_eq db ds cutoff h2 h5 h3 hds_mem
  obtain ⟨db1, hsteps, hdataRows, hdsData, hdatasets, hacls, hdbd, hpr⟩ :
      ∃ db1 : CogneeDB,
        cogneeDeleteSteps db [ds.id] cutoff
          = CogneeDeleteResult.ok200 db1
            (sqlOldDataIds db.dataRows db.datasetData [ds.id] cutoff).length
            (emptyDatasetIdsOf db.datasets [ds.id]
              (junctionAfterDelete db.datasetData
                (sqlOldDataIds db.dataRows db.datasetData [ds.id] cutoff)
                [ds.id])).length
        ∧ db1.dataRows = dataAfterDelete db.dataRows
            (sqlOldDataIds db.dataRows db.datasetData [ds.id] cutoff)
        ∧ db1.datasetData = junctionAfterDelete db.datasetData
            (sqlOldDataIds db.dataRows db.datasetData [ds.id] cutoff) [ds.id]
        ∧ db1.datasets = datasetsAfterCleanup db.datasets
            (emptyDatasetIdsOf db.datasets [ds.id]
              (junctionAfterDelete db.datasetData
                (sqlOldDataIds db.dataRows db.datasetData [ds.id] cutoff)
                [ds.id]))
        ∧ db1.acls = depAfterCleanup db.acls
            (emptyDatasetIdsOf db.datasets [ds.id]
              (junctionAfterDelete db.datasetData
                (sqlOldDataIds db.dataRows db.datasetData [ds.id] cutoff)
                [ds.id]))
        ∧ db1.datasetDatabase = depAfterCleanup db.datasetDatabase
            (emptyDatasetIdsOf db.datasets [ds.id]
              (junctionAfterDelete db.datasetData
                (sqlOldDataIds db.dataRows db.datasetData [ds.id] cutoff)
                [ds.id]))
        ∧ db1.pipelineRuns = depAfterCleanup db.pipelineRuns
            (emptyDatasetIdsOf db.datasets [ds.id]
              (junctionAfterDelete db.datasetData
                (sqlOldDataIds db.dataRows db.datasetData [ds.id] cutoff)
                [ds.id])) :=
    ⟨_, rfl, rfl, rfl, rfl, rfl, rfl, rfl⟩
  refine ⟨db1, ?_, linked_rows_count db ds.id h2 h3 h4, ?_, ?_, ?_, ?_, ?_⟩
  · rw [hcore, hsteps]
    congr 1
    · rw [sqlOldDataIds_single db ds.id cutoff h3, List.length_map]
    · rw [hE]
      by_cases hKN : (oldRowsOf db ds.id cutoff).length
          = (dsLinkedIds db ds.id).length
      · rw [if_pos hKN, if_pos hKN]
        rfl
      · rw [if_neg hKN, if_neg hKN]
        rfl
  · rw [hdataRows, hD]
  · rw [hdataRows, hD]
    exact length_filter_not_add db.dataRows (isOldLinked db ds.id cutoff)
  · rw [hdsData, hJ]
  · intro hKN
    refine ⟨?_, ?_, ?_, ?_, ?_⟩
    · rw [hdatasets, hE, if_pos hKN, datasetsAfterCleanup_single]
      intro hmem
      have := (List.mem_filter.mp hmem).2
      simp at this
    · rw [hdatasets, hE, if_pos hKN, datasetsAfterCleanup_single]
    · rw [hacls, hE, if_pos hKN, depAfterCleanup_single]
    · rw [hdbd, hE, if_pos hKN, depAfterCleanup_single]
    · rw [hpr, hE, if_pos hKN, depAfterCleanup_single]
  · intro hKN
    refine ⟨?_, ?_, ?_, ?_, ?_⟩
    · rw [hdatasets, hE, if_neg hKN, datasetsAfterCleanup_nil]
      exact hds_mem
    · rw [hdatasets, hE, if_neg hKN, datasetsAfterCleanup_nil]
    · rw [hacls, hE, if_neg hKN, depAfterCleanup_nil]
    · rw [hdbd, hE, if_neg hKN, depAfterCleanup_nil]
    · rw [hpr, hE, if_neg hKN, depAfterCleanup_nil]

/-- Witness for C2 on `dbSample` with cutoff second 20: K = 1 of the N = 2
rows of dataset 1 is old, so one data row and its junction row go, the dataset
row and its dependent rows stay. -/
theorem cognee_delete_exact_witness :
    ∃ db1 : CogneeDB,
      (cogneeDeleteCore dbSample ["u_c"] 20
        = CogneeDeleteResult.ok200 db1 (oldRowsOf dbSample 1 20).length
            (if (oldRowsOf dbSample 1 20).length = (dsLinkedIds dbSample 1).length
              then 1 else 0))
      ∧ (dbSample.dataRows.filter
          (fun d => (dsLinkedIds dbSample 1).contains d.id)).length
          = (dsLinkedIds dbSample 1).length
      ∧ db1.dataRows
          = dbSample.dataRows.filter (fun d => !(isOldLinked dbSample 1 20 d))
      ∧ db1.dataRows.length + (oldRowsOf dbSample 1 20).length
          = dbSample.dataRows.length
      ∧ db1.datasetData = dbSample.datasetData.filter (fun dd =>
          !(dd.datasetId == 1 &&
            ((oldRowsOf dbSample 1 20).map DataRow.id).contains dd.dataId))
      ∧ ((oldRowsOf dbSample 1 20).length = (dsLinkedIds dbSample 1).length →
          (⟨1, "u_c"⟩ : DatasetRow) ∉ db1.datasets
          ∧ db1.datasets = dbSample.datasets.filter (fun r => !(r.id == 1))
          ∧ db1.acls = dbSample.acls.filter (fun r => !(r.datasetId == 1))
          ∧ db1.datasetDatabase
              = dbSample.datasetDatabase.filter (fun r => !(r.datasetId == 1))
          ∧ db1.pipelineRuns
              = dbSample.pipelineRuns.filter (fun r => !(r.datasetId == 1)))
      ∧ ((oldRowsOf dbSample 1 20).length ≠ (dsLinkedIds dbSample 1).length →
          (⟨1, "u_c"⟩ : DatasetRow) ∈ db1.datasets
          ∧ db1.datasets = dbSample.datasets
          ∧ db1.acls = dbSample.acls
          ∧ db1.datasetDatabase = dbSample.datasetDatabase
          ∧ db1.pipelineRuns = dbSample.pipelineRuns) :=
  cognee_delete_exact dbSample ["u_c"] 20 ⟨1, "u_c"⟩ (by decide) (by decide)
    (by decide) (by decide) (by decide)

theorem sqlOldDataIds_nil (dataRows : List DataRow)
    (datasetData : List DatasetDataRow) (datasetIds : List Nat) (cutoff : Int)
    (h : ∀ d ∈ dataRows, ∀ dd ∈ datasetData, dd.dataId = d.id →
      datasetIds.contains dd.datasetId = true → ¬(d.updatedAt < cutoff)) :
    sqlOldDataIds dataRows datasetData datasetIds cutoff = [] := by
  unfold sqlOldDataIds
  induction dataRows with
  | nil => rfl
  | cons d t ih =>
    rw [List.foldr_cons]
    have hin : (datasetData.filter (fun dd =>
        dd.dataId == d.id && datasetIds.contains dd.datasetId &&
          decide (d.updatedAt < cutoff))) = [] := by
      rw [List.filter_eq_nil_iff]
      intro dd hdd hp
      rw [Bool.and_eq_true, Bool.and_eq_true] at hp
      obtain ⟨⟨hp1, hp2⟩, hp3⟩ := hp
      exact h d (List.mem_cons_self d t) dd hdd (beq_iff_eq.mp hp1) hp2
        (of_decide_eq_true hp3)
    rw [hin]
    simp only [List.map_nil, List.nil_append]
    exact ih (fun d2 hd2 => h d2 (List.mem_cons_of_mem d hd2))

theorem cogneeDeleteHandler_valid (db : CogneeDB) (now : Int) (u : String)
    (cats : List String) (dv : PyVal) (d : Int)
    (hu : u ≠ "") (hcats : cats ≠ []) (hcast : pyIntCast dv = some d) :
    cogneeDeleteHandler db now ⟨some u, some cats, some dv⟩
      = cogneeDeleteCore db (cats.map (fun c => u ++ "_" ++ c))
          (now - d * 86400) := by
  unfold cogneeDeleteHandler
  have h1 : optTruthy (some u) = true := by simp [optTruthy, hu]
  have h2 : optListTruthy (some cats) = true := by
    simp [optListTruthy, List.isEmpty_iff, hcats]
  simp only [h1, h2, Bool.not_true, Bool.false_or, Option.isNone_some,
    Bool.or_self, Bool.false_eq_true, if_false, hcast, Option.getD_some]

/-- C5 (amended): for every /delete request that passes input validation
(truthy user_id, non-empty categories list, days value convertible to int):
composite names matching zero dataset rows yield the 404 not-found response,
and names matching at least one dataset where none of the matched datasets'
data rows is older than the cutoff yield the 200 response with
data_entries_deleted equal to zero. -/
theorem cognee_delete_status (db : CogneeDB) (now : Int) (u : String)
    (cats : List String) (dv : PyVal) (d : Int)
    (hu : u ≠ "") (hcats : cats ≠ []) (hcast : pyIntCast dv = some d) :
    (db.datasets.filter (fun r =>
        (cats.map (fun c => u ++ "_" ++ c)).contains r.name) = [] →
      cogneeDeleteHandler db now ⟨some u, some cats, some dv⟩
        = CogneeDeleteResult.notFound404 db)
    ∧ (db.datasets.filter (fun r =>
        (cats.map (fun c => u ++ "_" ++ c)).contains r.name) ≠ [] →
      (∀ dr ∈ db.dataRows, ∀ dd ∈ db.datasetData, dd.dataId = dr.id →
        ((db.datasets.filter (fun r =>
          (cats.map (fun c => u ++ "_" ++ c)).contains r.name)).map
          (fun r => r.id)).contains dd.datasetId = true →
        ¬(dr.updatedAt < now - d * 86400)) →
      ∃ (db1 : CogneeDB) (rc : Nat),
        cogneeDeleteHandler db now ⟨some u, some cats, some dv⟩
          = CogneeDeleteResult.ok200 db1 0 rc) := by
  have hval := cogneeDeleteHandler_valid db now u cats dv d hu hcats hcast
  constructor
  · intro hnil
    rw [hval]
    unfold cogneeDeleteCore
    rw [hnil]
    rfl
  · intro hne hfresh
    obtain ⟨db1, rc, hsteps⟩ :
        ∃ db1 rc, cogneeDeleteSteps db
          ((db.datasets.filter (fun r =>
            (cats.map (fun c => u ++ "_" ++ c)).contains r.name)).map
            (fun r => r.id)) (now - d * 86400)
          = CogneeDeleteResult.ok200 db1
            (sqlOldDataIds db.dataRows db.datasetData
              ((db.datasets.filter (fun r =>
                (cats.map (fun c => u ++ "_" ++ c)).contains r.name)).map
                (fun r => r.id)) (now - d * 86400)).length rc :=
      ⟨_, _, rfl⟩
    rw [sqlOldDataIds_nil _ _ _ _ hfresh] at hsteps
    refine ⟨db1, rc, ?_⟩
    rw [hval]
    unfold cogneeDeleteCore
    rw [if_neg (fun hisEmpty => hne (List.isEmpty_iff.mp hisEmpty))]
    exact hsteps

/-- Witness for the amended C5: a request matching no dataset 404s; a request
matching dataset 1 of `dbSample` with nothing old reports zero deletions. -/
theorem cognee_delete_status_witness :
    (cogneeDeleteHandler ⟨[⟨2, "v_d"⟩], [], [], [], [], []⟩ 0
        ⟨some "u", some ["c"], some (PyVal.pyInt 1)⟩
      = CogneeDeleteResult.notFound404 ⟨[⟨2, "v_d"⟩], [], [], [], [], []⟩)
    ∧ ∃ (db1 : CogneeDB) (rc : Nat),
        cogneeDeleteHandler dbSample 0 ⟨some "u", some ["c"], some (PyVal.pyInt 1)⟩
          = CogneeDeleteResult.ok200 db1 0 rc :=
  ⟨(cognee_delete_status ⟨[⟨2, "v_d"⟩], [], [], [], [], []⟩ 0 "u" ["c"]
      (PyVal.pyInt 1) 1 (by decide) (by decide) rfl).1 (by decide),
   (cognee_delete_status dbSample 0 "u" ["c"] (PyVal.pyInt 1) 1 (by decide)
      (by decide) rfl).2 (by decide) (by decide)⟩

/-- C5 counterexample: two requests whose composite names match zero dataset
rows but which do not produce the 404 response.  An empty categories list
fails validation with 400 before any dataset lookup, and a non-numeric days
value raises inside the try block and returns 500 (the claim says such
requests never get a 500). -/
theorem cognee_delete_status_cex :
    cogneeDeleteHandler ⟨[], [], [], [], [], []⟩ 0
        ⟨some "u", some [], some (PyVal.pyInt 1)⟩
      = CogneeDeleteResult.badRequest400
    ∧ cogneeDeleteHandler ⟨[], [], [], [], [], []⟩ 0
        ⟨some "u", some ["c"], some (PyVal.pyStr "ninety")⟩
      = CogneeDeleteResult.serverError500 ⟨[], [], [], [], [], []⟩ :=
  ⟨rfl, rfl⟩

end AiMemory
